import Mathlib

/-!
# A verification model of the Gatehouse policy datastore

This file gives a shallow embedding in Lean 4 of the in-memory policy
engine of the Gatehouse repository (`src/lib/ds.rs`, `src/lib/policy.rs`,
`src/lib/actor.rs`, `src/lib/role.rs`, `src/lib/group.rs`,
`src/lib/target.rs`, `src/lib/storage/mod.rs`) and proves or refutes the
behavioural claims of the specification against it.

Modelling conventions:

* Rust `HashMap<String, V>` is modelled as an association list
  `List (String × V)` with `HashMap::get` / `insert` / `remove` modelled by
  `lookupA` / `insertA` / `eraseA` (first-occurrence semantics; theorems
  that need the hash-map key-uniqueness invariant take an explicit
  `Nodup` hypothesis on the key list).
* Rust `HashSet<String>` is modelled as `Finset String`.
* The `async` plumbing (inbox, oneshot reply channels, RwLocks) is erased:
  every datastore handler in `ds.rs` is a straight-line function of the
  current state, so each one becomes a pure function
  `StorageOutcome → DsState → Request → DsResponse × DsState`.
* Storage backends only ever contribute `Ok(())` or `Err(msg)` per call,
  and no handler calls the same storage method twice in one request with
  a different record kind in the same position, so a backend is modelled
  as a `StorageOutcome` record of one `Bool` per trait method
  (`true` = `Ok`).
-/

namespace Gatehouse

/-- `u8::to_ascii_lowercase` on one character: map bytes 65..90 (ASCII
upper case) to lower case, leave everything else unchanged. -/
def asciiLowerChar (c : Char) : Char :=
  if 65 ≤ c.toNat ∧ c.toNat ≤ 90 then Char.ofNat (c.toNat + 32) else c

/-- Rust `str::to_ascii_lowercase` (character-wise over the string's
character list). -/
def lower (s : String) : String :=
  ⟨s.data.map asciiLowerChar⟩

/-- `HashMap::get` on the association-list model: the first binding of the
key, if any. -/
def lookupA {α : Type} (k : String) : List (String × α) → Option α
  | [] => none
  | (k₀, v) :: t => if k₀ = k then some v else lookupA k t

/-- `HashMap::contains_key`. -/
def containsA {α : Type} (k : String) (m : List (String × α)) : Bool :=
  (lookupA k m).isSome

/-- `HashMap::insert`: replace the first binding of the key, or append a
new binding. -/
def insertA {α : Type} (k : String) (v : α) : List (String × α) → List (String × α)
  | [] => [(k, v)]
  | (k₀, v₀) :: t => if k₀ = k then (k, v) :: t else (k₀, v₀) :: insertA k v t

/-- `HashMap::remove`: drop the first binding of the key. -/
def eraseA {α : Type} (k : String) : List (String × α) → List (String × α)
  | [] => []
  | (k₀, v₀) :: t => if k₀ = k then t else (k₀, v₀) :: eraseA k t

/-- Attribute maps: Rust `HashMap<String, HashSet<String>>`. -/
abbrev AttrMap := List (String × Finset String)

/-- Convert a request-level attribute table
(`HashMap<String, AttributeValues>`) into a stored attribute map, as in the
`for (key, vals) in req.attributes` loops of `ds.rs`:
`attributes.insert(key, HashSet::from_iter(vals.values))`. -/
def attrsOfReq (l : List (String × List String)) : AttrMap :=
  l.foldl (fun m kv => insertA kv.1 kv.2.toFinset m) []

/-- Modelled from the spec: `metro::hash64` comes from the external
`fasthash` crate, which is not part of this repository.  The spec fixes
only that it is a stable, deterministic 64-bit hash of the input string;
we model it as a concrete FNV-1a-style fold over the string's characters,
reduced modulo 2^64.  None of the theorems below depend on the particular
mixing, only on it being a function of the string with values below 2^64. -/
def metroHash64 (s : String) : Nat :=
  s.data.foldl (fun h c => ((h ^^^ c.toNat) * 1099511628211) % (2 ^ 64))
    14695981039346656037

/-- `target.rs`: `RegisteredTarget`. -/
structure RegisteredTarget where
  name : String
  typestr : String
  actions : Finset String
  attributes : AttrMap
deriving DecidableEq

/-- `actor.rs`: `RegisteredActor`. -/
structure RegisteredActor where
  name : String
  typestr : String
  attributes : AttrMap
deriving DecidableEq

/-- `actor.rs`: `RegisteredActor::bucket`, the metro hash of
`typestr ++ "/" ++ name` reduced modulo 100 (the Rust code then converts
the result to `u8` with `try_into().unwrap()`). -/
def RegisteredActor.bucket (a : RegisteredActor) : Nat :=
  metroHash64 (a.typestr ++ "/" ++ a.name) % 100

/-- `group.rs`: `RegisteredGroupMember`. -/
structure GroupMember where
  name : String
  typestr : String
deriving DecidableEq

/-- `group.rs`: `RegisteredGroup`. -/
structure RegisteredGroup where
  name : String
  desc : Option String
  members : Finset GroupMember
  roles : Finset String
deriving DecidableEq

/-- `role.rs` / `ds.rs`: `RegisteredRole`.  The checked-in `role.rs`
declares `groups : HashSet<RegisteredGroup>`, but `RegisteredGroup` hashes
and compares by its name alone and every use in `ds.rs` inserts, removes
and iterates plain group-name strings (`cloned_role.groups.insert(name)`,
`groups.get(group_name)`), so the back-reference set is a set of group
names. -/
structure RegisteredRole where
  name : String
  groups : Finset String
deriving DecidableEq

/-- `role.rs`: `RegisteredRole::new` starts with no group back-references. -/
def RegisteredRole.new (name : String) : RegisteredRole :=
  { name := name, groups := ∅ }

/-- `role.rs`, `impl From<RegisteredRole> for Role` (lines 52-56): the wire
`Role` record is built from the name alone; the `groups` back-reference is
dropped. -/
structure ProtoRole where
  name : String
deriving DecidableEq

/-- The conversion `RegisteredRole → Role` of `role.rs`. -/
def RegisteredRole.toProto (r : RegisteredRole) : ProtoRole :=
  { name := r.name }

/-- `policy.rs`: `StringCheck`. -/
inductive StringCheck where
  | oneOf (vals : List String)
  | notOneOf (vals : List String)
deriving DecidableEq

/-- `policy.rs`: `StringCheck::check`. -/
def StringCheck.check : StringCheck → String → Bool
  | .oneOf vals, s => vals.any (fun v => v = s)
  | .notOneOf vals, s => !vals.any (fun v => v = s)

/-- `policy.rs`: `KvCheck`. -/
inductive KvCheck where
  | has (key : String) (vals : List String)
  | hasNot (key : String) (vals : List String)
deriving DecidableEq

/-- `policy.rs`: `KvCheck::check` against an attribute map. -/
def KvCheck.check : KvCheck → AttrMap → Bool
  | .has key vals, m =>
      match lookupA key m with
      | some attrVals => vals.any (fun v => decide (v ∈ attrVals))
      | none => false
  | .hasNot key vals, m =>
      match lookupA key m with
      | some attrVals => !vals.any (fun v => decide (v ∈ attrVals))
      | none => true

/-- `policy.rs`: `NumberCheck` (over `i32`). -/
inductive NumberCheck where
  | equals (val : Int)
  | lessThan (val : Int)
  | moreThan (val : Int)
deriving DecidableEq

/-- `policy.rs`: `NumberCheck::check`. -/
def NumberCheck.check : NumberCheck → Int → Bool
  | .equals v, n => decide (n = v)
  | .lessThan v, n => decide (n < v)
  | .moreThan v, n => decide (n > v)

/-- `policy.rs`: `ActorCheck`. -/
structure ActorCheck where
  name : Option StringCheck
  typestr : Option StringCheck
  attributes : List KvCheck
  bucket : Option NumberCheck
deriving DecidableEq

/-- `policy.rs`: `ActorCheck::check` — all present sub-checks must pass;
the bucket check runs on `actor.bucket()` widened to a signed integer. -/
def ActorCheck.check (ac : ActorCheck) (actor : RegisteredActor) : Bool :=
  (match ac.name with | none => true | some sc => sc.check actor.name) &&
  (match ac.typestr with | none => true | some sc => sc.check actor.typestr) &&
  ac.attributes.all (fun a => a.check actor.attributes) &&
  (match ac.bucket with | none => true | some nc => nc.check (actor.bucket : Int))

/-- `policy.rs`: `TargetCheck`. -/
structure TargetCheck where
  name : Option StringCheck
  typestr : Option StringCheck
  attributes : List KvCheck
  match_in_actor : List String
  match_in_env : List String
  action : Option StringCheck
deriving DecidableEq

/-- `policy.rs`: `TargetCheck::check_attr_match` — both maps must contain
the key and the two value sets must intersect. -/
def TargetCheck.checkAttrMatch (attrToCheck : String)
    (ourMap otherMap : AttrMap) : Bool :=
  match lookupA attrToCheck ourMap, lookupA attrToCheck otherMap with
  | some ourVals, some otherVals => decide ((ourVals ∩ otherVals).Nonempty)
  | _, _ => false

/-- `policy.rs`: `TargetCheck::check`. -/
def TargetCheck.check (tc : TargetCheck) (targetName targetType : String)
    (targetAttributes : AttrMap) (targetAction : String)
    (actorAttributes envAttributes : AttrMap) : Bool :=
  (match tc.name with | none => true | some sc => sc.check targetName) &&
  (match tc.typestr with | none => true | some sc => sc.check targetType) &&
  tc.attributes.all (fun a => a.check targetAttributes) &&
  tc.match_in_actor.all
    (fun attr => TargetCheck.checkAttrMatch attr targetAttributes actorAttributes) &&
  tc.match_in_env.all
    (fun attr => TargetCheck.checkAttrMatch attr targetAttributes envAttributes) &&
  (match tc.action with | none => true | some sc => sc.check targetAction)

/-- `policy.rs`: `Decide`. -/
inductive Decide where
  | deny
  | allow
deriving DecidableEq

/-- `policy.rs`: `RegisteredPolicyRule`. -/
structure RegisteredPolicyRule where
  name : String
  desc : Option String
  actor_check : Option ActorCheck
  env_attributes : List KvCheck
  target_check : Option TargetCheck
  decision : Decide
deriving DecidableEq

/-- `ds.rs`: the five in-memory maps of the `Datastore` (targets and
actors are two-level: type string → name → record). -/
structure DsState where
  targets : List (String × List (String × RegisteredTarget))
  actors : List (String × List (String × RegisteredActor))
  roles : List (String × RegisteredRole)
  groups : List (String × RegisteredGroup)
  policies : List (String × RegisteredPolicyRule)
deriving DecidableEq

/-- The empty datastore (a fresh load from an empty backend). -/
def DsState.empty : DsState :=
  { targets := [], actors := [], roles := [], groups := [], policies := [] }

/-- One `Bool` per storage-trait method of `storage/mod.rs`
(`true` = the call returns `Ok(())`, `false` = `Err`).  No `ds.rs` handler
calls the same method for both its primary and a secondary record, so this
captures every reachable success/failure pattern. -/
structure StorageOutcome where
  saveTarget : Bool
  removeTarget : Bool
  saveActor : Bool
  removeActor : Bool
  saveRole : Bool
  removeRole : Bool
  saveGroup : Bool
  removeGroup : Bool
  savePolicy : Bool
  removePolicy : Bool
deriving DecidableEq

/-- A backend on which every call succeeds (e.g. the nil backend). -/
def StorageOutcome.allOk : StorageOutcome :=
  ⟨true, true, true, true, true, true, true, true, true, true⟩

/-- `tonic::Status` codes actually used by `ds.rs`, plus
`failedPrecondition` (named by the spec's error taxonomy but never produced
by the code). -/
inductive ErrKind where
  | notFound
  | alreadyExists
  | invalidArgument
  | failedPrecondition
  | internal
deriving DecidableEq

/-- `msgs.rs`: `DsResponse`.  The proto conversions for targets, actors,
groups and policies are field-faithful (`target.rs`, `actor.rs`,
`group.rs`, `policy.rs`), so those responses carry the registered records
directly; the role conversion of `role.rs` drops the `groups`
back-reference, so role responses carry the lossy `ProtoRole`.  `panic`
records an `unwrap()` of `None` (the task dies without replying). -/
inductive DsResponse where
  | error (kind : ErrKind)
  | panic
  | singleTarget (t : RegisteredTarget)
  | multipleTargets (ts : List RegisteredTarget)
  | singleActor (a : RegisteredActor)
  | multipleActors (acts : List RegisteredActor)
  | singleRole (r : ProtoRole)
  | multipleRoles (rs : List ProtoRole)
  | singleGroup (g : RegisteredGroup)
  | multipleGroups (gs : List RegisteredGroup)
  | singlePolicy (p : RegisteredPolicyRule)
  | multiplePolicies (ps : List RegisteredPolicyRule)
  | checkResult (d : Decide)
deriving DecidableEq

/-- A response that is neither an error nor a panic. -/
def DsResponse.isOk : DsResponse → Bool
  | .error _ => false
  | .panic => false
  | _ => true

/-- `storage/mod.rs`: `BackendUpdate`. -/
inductive BackendUpdate where
  | putActor (a : RegisteredActor)
  | putGroup (g : RegisteredGroup)
  | putPolicyRule (p : RegisteredPolicyRule)
  | putRole (r : RegisteredRole)
  | putTarget (t : RegisteredTarget)
  | deleteActor (typestr name : String)
  | deleteGroup (name : String)
  | deletePolicyRule (name : String)
  | deleteRole (name : String)
  | deleteTarget (typestr name : String)
deriving DecidableEq

/-- Request records, mirroring the proto request messages as they are
consumed in `ds.rs` (request attribute tables are
`HashMap<String, AttributeValues>`, modelled as key/value-list pairs). -/
structure AddTargetRequest where
  name : String
  typestr : String
  actions : List String
  attributes : List (String × List String)

/-- `ModifyTargetRequest`. -/
structure ModifyTargetRequest where
  name : String
  typestr : String
  add_actions : List String
  remove_actions : List String
  add_attributes : List (String × List String)
  remove_attributes : List (String × List String)

/-- `RemoveTargetRequest`. -/
structure RemoveTargetRequest where
  name : String
  typestr : String

/-- `GetTargetsRequest` (both filters optional, exact match). -/
structure GetTargetsRequest where
  name : Option String
  typestr : Option String

/-- `AddActorRequest`. -/
structure AddActorRequest where
  name : String
  typestr : String
  attributes : List (String × List String)

/-- `ModifyActorRequest`. -/
structure ModifyActorRequest where
  name : String
  typestr : String
  add_attributes : List (String × List String)
  remove_attributes : List (String × List String)

/-- `RemoveActorRequest`. -/
structure RemoveActorRequest where
  name : String
  typestr : String

/-- `GetActorsRequest`. -/
structure GetActorsRequest where
  name : Option String
  typestr : Option String

/-- `AddRoleRequest`. -/
structure AddRoleRequest where
  name : String

/-- `RemoveRoleRequest`. -/
structure RemoveRoleRequest where
  name : String

/-- `GetRolesRequest`. -/
structure GetRolesRequest where
  name : Option String

/-- `AddGroupRequest`. -/
structure AddGroupRequest where
  name : String
  desc : Option String
  members : List GroupMember
  roles : List String

/-- `ModifyGroupRequest`. -/
structure ModifyGroupRequest where
  name : String
  add_members : List GroupMember
  remove_members : List GroupMember
  add_roles : List String
  remove_roles : List String

/-- `RemoveGroupRequest`. -/
structure RemoveGroupRequest where
  name : String

/-- `GetGroupsRequest`. -/
structure GetGroupsRequest where
  name : Option String
  member : Option GroupMember
  role : Option String

/-- `AddPolicyRequest` / `ModifyPolicyRequest` carry an optional rule body;
the proto `PolicyRule` converts bijectively to `RegisteredPolicyRule`
(`policy.rs`), so the rule is carried directly. -/
structure AddPolicyRequest where
  rule : Option RegisteredPolicyRule

/-- `ModifyPolicyRequest`. -/
structure ModifyPolicyRequest where
  rule : Option RegisteredPolicyRule

/-- `RemovePolicyRequest`. -/
structure RemovePolicyRequest where
  name : String

/-- `GetPoliciesRequest` (`ds.rs::get_policies` only consumes the name
filter). -/
structure GetPoliciesRequest where
  name : Option String

/-- `CheckRequest` (`proto::base::CheckRequest`).  In `ds.rs::check` the
proto actor is `Option<Actor>` and is `unwrap()`ed; we model the actor as
required, matching the semantic contract of the RPC surface. -/
structure CheckRequest where
  actorName : String
  actorTypestr : String
  actorAttributes : List (String × List String)
  envAttributes : List (String × List String)
  targetName : String
  targetType : String
  targetAction : String

/-- `ds.rs::add_target`.  Note: `targets.entry(typestr).or_insert_with(HashMap::new)`
inserts an empty per-type bucket before the duplicate check, and that
insertion is kept even when the operation later fails. -/
def addTarget (stor : StorageOutcome) (st : DsState) (req : AddTargetRequest) :
    DsResponse × DsState :=
  let name := lower req.name
  let typestr := lower req.typestr
  let targets1 :=
    if containsA typestr st.targets then st.targets
    else insertA typestr [] st.targets
  let typed := (lookupA typestr targets1).getD []
  if containsA name typed then
    (.error .alreadyExists, { st with targets := targets1 })
  else
    let newTarget : RegisteredTarget :=
      { name := name, typestr := typestr, actions := req.actions.toFinset,
        attributes := attrsOfReq req.attributes }
    if stor.saveTarget then
      (.singleTarget newTarget,
        { st with targets := insertA typestr (insertA name newTarget typed) targets1 })
    else
      (.error .internal, { st with targets := targets1 })

/-- One step of the `for attrib in req.add_attributes` loop of
`ds.rs::modify_target` / `modify_actor`:
`attributes.entry(key).or_default().extend(values)`. -/
def applyAddAttr (m : AttrMap) (kv : String × List String) : AttrMap :=
  insertA kv.1 ((lookupA kv.1 m).getD ∅ ∪ kv.2.toFinset) m

/-- One step of the `for attrib in req.remove_attributes` loop: remove each
value from the key's set if the key is present, and drop the key entirely
when its set becomes empty. -/
def applyRemoveAttr (m : AttrMap) (kv : String × List String) : AttrMap :=
  match lookupA kv.1 m with
  | none => m
  | some cur =>
      let cur' := cur \ kv.2.toFinset
      if cur' = ∅ then eraseA kv.1 m else insertA kv.1 cur' m

/-- `ds.rs::modify_target`. -/
def modifyTarget (stor : StorageOutcome) (st : DsState) (req : ModifyTargetRequest) :
    DsResponse × DsState :=
  let name := lower req.name
  let typestr := lower req.typestr
  match lookupA typestr st.targets with
  | none => (.error .notFound, st)
  | some typed =>
    match lookupA name typed with
    | none => (.error .notFound, st)
    | some t =>
      let acts1 := req.add_actions.foldl (fun s a => insert (lower a) s) t.actions
      let acts2 := req.remove_actions.foldl (fun s a => s.erase (lower a)) acts1
      let attrs1 := req.add_attributes.foldl applyAddAttr t.attributes
      let attrs2 := req.remove_attributes.foldl applyRemoveAttr attrs1
      let updated : RegisteredTarget := { t with actions := acts2, attributes := attrs2 }
      if stor.saveTarget then
        (.singleTarget updated,
          { st with targets := insertA typestr (insertA name updated typed) st.targets })
      else
        (.error .internal, st)

/-- `ds.rs::remove_target`. -/
def removeTarget (stor : StorageOutcome) (st : DsState) (req : RemoveTargetRequest) :
    DsResponse × DsState :=
  let name := lower req.name
  let typestr := lower req.typestr
  match lookupA typestr st.targets with
  | none => (.error .notFound, st)
  | some typed =>
    match lookupA name typed with
    | none => (.error .notFound, st)
    | some t =>
      if stor.removeTarget then
        (.singleTarget t,
          { st with targets := insertA typestr (eraseA name typed) st.targets })
      else
        (.error .internal, st)

/-- An optional exact filter, as in the `if let Some(filter) = ... { if
mismatch { continue } }` pattern. -/
def optMatch (filter : Option String) (s : String) : Bool :=
  match filter with
  | none => true
  | some f => s = f

/-- `ds.rs::get_targets`: both filters lowered, exact comparison. -/
def getTargets (st : DsState) (req : GetTargetsRequest) : DsResponse :=
  let tf := req.typestr.map lower
  let nf := req.name.map lower
  .multipleTargets
    ((st.targets.filter (fun b => optMatch tf b.1)).flatMap
      (fun b => (b.2.filter (fun nt => optMatch nf nt.1)).map Prod.snd))

/-- `ds.rs::add_actor` (same `entry(..).or_insert_with` bucket behaviour as
`add_target`). -/
def addActor (stor : StorageOutcome) (st : DsState) (req : AddActorRequest) :
    DsResponse × DsState :=
  let name := lower req.name
  let typestr := lower req.typestr
  let actors1 :=
    if containsA typestr st.actors then st.actors
    else insertA typestr [] st.actors
  let typed := (lookupA typestr actors1).getD []
  if containsA name typed then
    (.error .alreadyExists, { st with actors := actors1 })
  else
    let newActor : RegisteredActor :=
      { name := name, typestr := typestr, attributes := attrsOfReq req.attributes }
    if stor.saveActor then
      (.singleActor newActor,
        { st with actors := insertA typestr (insertA name newActor typed) actors1 })
    else
      (.error .internal, { st with actors := actors1 })

/-- `ds.rs::modify_actor`. -/
def modifyActor (stor : StorageOutcome) (st : DsState) (req : ModifyActorRequest) :
    DsResponse × DsState :=
  let name := lower req.name
  let typestr := lower req.typestr
  match lookupA typestr st.actors with
  | none => (.error .notFound, st)
  | some typed =>
    match lookupA name typed with
    | none => (.error .notFound, st)
    | some a =>
      let attrs1 := req.add_attributes.foldl applyAddAttr a.attributes
      let attrs2 := req.remove_attributes.foldl applyRemoveAttr attrs1
      let updated : RegisteredActor := { a with attributes := attrs2 }
      if stor.saveActor then
        (.singleActor updated,
          { st with actors := insertA typestr (insertA name updated typed) st.actors })
      else
        (.error .internal, st)

/-- `ds.rs::remove_actor`. -/
def removeActor (stor : StorageOutcome) (st : DsState) (req : RemoveActorRequest) :
    DsResponse × DsState :=
  let name := lower req.name
  let typestr := lower req.typestr
  match lookupA typestr st.actors with
  | none => (.error .notFound, st)
  | some typed =>
    match lookupA name typed with
    | none => (.error .notFound, st)
    | some a =>
      if stor.removeActor then
        (.singleActor a,
          { st with actors := insertA typestr (eraseA name typed) st.actors })
      else
        (.error .internal, st)

/-- One iteration of the group loop of `ds.rs::expand_groups_and_roles`:
if the actor is a member of the group, add the group's name under key
`member-of` (via `entry(..).or_default().insert(..)`) and the group's
roles under key `has-role` (via `entry(..).or_default().extend(..)`). -/
def expandStep (actorAsMember : GroupMember) (a : RegisteredActor)
    (p : String × RegisteredGroup) : RegisteredActor :=
  if actorAsMember ∈ p.2.members then
    let memberOf := insert p.2.name ((lookupA "member-of" a.attributes).getD ∅)
    let a1 := { a with attributes := insertA "member-of" memberOf a.attributes }
    let hasRole := ((lookupA "has-role" a1.attributes).getD ∅) ∪ p.2.roles
    { a1 with attributes := insertA "has-role" hasRole a1.attributes }
  else a

def expandGroupsAndRoles (st : DsState) (actor : RegisteredActor) : RegisteredActor :=
  st.groups.foldl
    (expandStep { name := actor.name, typestr := actor.typestr }) actor

/-- `ds.rs::extend_actor`: if an actor with the same key is registered,
`HashMap::extend` its stored attributes over the working attributes (each
registered binding replaces a caller binding with the same key), then
expand groups and roles. -/
def extendActor (st : DsState) (actor : RegisteredActor) : RegisteredActor :=
  let actor1 :=
    match lookupA actor.typestr st.actors with
    | none => actor
    | some typed =>
      match lookupA actor.name typed with
      | none => actor
      | some found =>
          { actor with
            attributes := found.attributes.foldl
              (fun m kv => insertA kv.1 kv.2 m) actor.attributes }
  expandGroupsAndRoles st actor1

/-- `ds.rs::get_actors`: lowered exact filters; every returned actor is
expanded with its derived group/role attributes. -/
def getActors (st : DsState) (req : GetActorsRequest) : DsResponse :=
  let tf := req.typestr.map lower
  let nf := req.name.map lower
  .multipleActors
    ((st.actors.filter (fun b => optMatch tf b.1)).flatMap
      (fun b => (b.2.filter (fun na => optMatch nf na.1)).map
        (fun na => expandGroupsAndRoles st na.2)))

/-- `ds.rs::add_role`. -/
def addRole (stor : StorageOutcome) (st : DsState) (req : AddRoleRequest) :
    DsResponse × DsState :=
  let role := lower req.name
  let newRole := RegisteredRole.new role
  if containsA role st.roles then
    (.error .alreadyExists, st)
  else if stor.saveRole then
    (.singleRole newRole.toProto, { st with roles := insertA role newRole st.roles })
  else
    (.error .internal, st)

/-- A computable lexicographic comparison on character lists (by code
point), used to give `HashSet` iteration a concrete order. -/
def charListLeB : List Char → List Char → Bool
  | [], _ => true
  | _ :: _, [] => false
  | a :: tla, b :: tlb =>
    if a.toNat < b.toNat then true
    else if b.toNat < a.toNat then false
    else charListLeB tla tlb

/-- The induced total order on strings. -/
def strLe (a b : String) : Prop := charListLeB a.data b.data = true

instance : DecidableRel strLe :=
  fun a b => inferInstanceAs (Decidable (charListLeB a.data b.data = true))

theorem charListLeB_trans : ∀ la lb lc : List Char, charListLeB la lb = true →
    charListLeB lb lc = true → charListLeB la lc = true := by
  intro la
  induction la with
  | nil => intro lb lc _ _; rfl
  | cons a tla ih =>
    intro lb lc hab hbc
    cases lb with
    | nil => simp [charListLeB] at hab
    | cons b tlb =>
      cases lc with
      | nil => simp [charListLeB] at hbc
      | cons c tlc =>
        simp only [charListLeB] at hab hbc ⊢
        by_cases h1 : a.toNat < b.toNat
        · by_cases h2 : b.toNat < c.toNat
          · rw [if_pos (by omega)]
          · by_cases h3 : c.toNat < b.toNat
            · rw [if_neg h2, if_pos h3] at hbc
              exact absurd hbc (by simp)
            · rw [if_pos (by omega)]
        · by_cases h4 : b.toNat < a.toNat
          · rw [if_neg h1, if_pos h4] at hab
            exact absurd hab (by simp)
          · rw [if_neg h1, if_neg h4] at hab
            by_cases h2 : b.toNat < c.toNat
            · rw [if_pos (by omega)]
            · by_cases h3 : c.toNat < b.toNat
              · rw [if_neg h2, if_pos h3] at hbc
                exact absurd hbc (by simp)
              · rw [if_neg h2, if_neg h3] at hbc
                rw [if_neg (by omega), if_neg (by omega)]
                exact ih tlb tlc hab hbc

theorem charListLeB_antisymm : ∀ la lb : List Char, charListLeB la lb = true →
    charListLeB lb la = true → la = lb := by
  intro la
  induction la with
  | nil =>
    intro lb _ h2
    cases lb with
    | nil => rfl
    | cons b tlb => simp [charListLeB] at h2
  | cons a tla ih =>
    intro lb h1 h2
    cases lb with
    | nil => simp [charListLeB] at h1
    | cons b tlb =>
      simp only [charListLeB] at h1 h2
      by_cases hlt : a.toNat < b.toNat
      · rw [if_neg (by omega), if_pos hlt] at h2
        exact absurd h2 (by simp)
      · by_cases hgt : b.toNat < a.toNat
        · rw [if_neg hlt, if_pos hgt] at h1
          exact absurd h1 (by simp)
        · have hn : a.toNat = b.toNat := by omega
          have hab : a = b := Char.eq_of_val_eq (UInt32.ext hn)
          subst hab
          rw [if_neg hlt, if_neg hgt] at h1 h2
          rw [ih tlb h1 h2]

theorem charListLeB_total : ∀ la lb : List Char,
    charListLeB la lb = true ∨ charListLeB lb la = true := by
  intro la
  induction la with
  | nil => intro lb; left; rfl
  | cons a tla ih =>
    intro lb
    cases lb with
    | nil => right; rfl
    | cons b tlb =>
      simp only [charListLeB]
      rcases Nat.lt_trichotomy a.toNat b.toNat with h | h | h
      · left
        rw [if_pos h]
      · rcases ih tlb with h' | h'
        · left
          rw [if_neg (by omega), if_neg (by omega)]
          exact h'
        · right
          rw [if_neg (by omega), if_neg (by omega)]
          exact h'
      · right
        rw [if_pos h]

instance : IsTrans String strLe :=
  ⟨fun a b c => charListLeB_trans a.data b.data c.data⟩

instance : IsAntisymm String strLe :=
  ⟨fun a b h1 h2 => String.ext (charListLeB_antisymm a.data b.data h1 h2)⟩

instance : IsTotal String strLe :=
  ⟨fun a b => charListLeB_total a.data b.data⟩

/-- Sort a multiset of strings into a list with (structurally recursive)
insertion sort; well defined because sorted permutations agree. -/
def msortStr (m : Multiset String) : List String :=
  Quot.liftOn m (fun l => l.insertionSort strLe)
    (fun l₁ l₂ h =>
      List.eq_of_perm_of_sorted
        ((List.perm_insertionSort strLe l₁).trans
          (h.trans (List.perm_insertionSort strLe l₂).symm))
        (List.sorted_insertionSort strLe l₁)
        (List.sorted_insertionSort strLe l₂))

/-- The concrete iteration order of a `HashSet<String>` in the model. -/
def finsetSort (s : Finset String) : List String := msortStr s.val

theorem mem_msortStr (m : Multiset String) (a : String) :
    a ∈ msortStr m ↔ a ∈ m :=
  Quot.inductionOn m fun l => by
    simp [msortStr, (List.perm_insertionSort strLe l).mem_iff]

theorem mem_finsetSort (s : Finset String) (a : String) :
    a ∈ finsetSort s ↔ a ∈ s :=
  mem_msortStr s.val a

/-- The `for group_name in &existing_role.groups` loop of
`ds.rs::remove_role`: for every group the role is granted to that still
exists, clone it with the role removed.  A `HashSet` iterates in
unspecified order; we iterate the name set in sorted order (the commits
below are per-distinct-key inserts, so the order is immaterial). -/
def groupsAfterRoleRemoval (st : DsState) (role : String)
    (existing : RegisteredRole) : List RegisteredGroup :=
  (finsetSort existing.groups).filterMap
    (fun gname => (lookupA gname st.groups).map
      (fun g => { g with roles := g.roles.erase role }))

/-- `ds.rs::remove_role`.  The primary `storage.remove_role` gates the
role deletion; each updated group is then saved (a failure is only logged)
and committed unconditionally. -/
def removeRole (stor : StorageOutcome) (st : DsState) (req : RemoveRoleRequest) :
    DsResponse × DsState :=
  let role := lower req.name
  match lookupA role st.roles with
  | none => (.error .notFound, st)
  | some existing =>
    let updatedGroups := groupsAfterRoleRemoval st role existing
    if stor.removeRole then
      (.singleRole existing.toProto,
        { st with
          roles := eraseA role st.roles,
          groups := updatedGroups.foldl (fun gs g => insertA g.name g gs) st.groups })
    else
      (.error .internal, st)

/-- `ds.rs::get_roles`.  With no name filter all roles are returned; with a
filter the name is looked up verbatim (it is NOT lowered). -/
def getRoles (st : DsState) (req : GetRolesRequest) : DsResponse :=
  match req.name with
  | none => .multipleRoles (st.roles.map (fun p => p.2.toProto))
  | some n =>
    match lookupA n st.roles with
    | some r => .multipleRoles [r.toProto]
    | none => .multipleRoles []

/-- The role-collection loops of `ds.rs::add_group` / `modify_group`: walk
the requested role names in order, lower each, fail on the first name
missing from the roles map, and otherwise collect the set of (lowered)
names together with a clone of each found role transformed by `upd`
(insert or remove the group's name in its back-reference set). -/
def collectRoles (rolesMap : List (String × RegisteredRole))
    (upd : RegisteredRole → RegisteredRole) :
    List String → Option (Finset String × List RegisteredRole)
  | [] => some (∅, [])
  | r :: rest =>
    let rname := lower r
    match lookupA rname rolesMap with
    | none => none
    | some found =>
      match collectRoles rolesMap upd rest with
      | none => none
      | some (rs, frs) => some (insert rname rs, upd found :: frs)

/-- `ds.rs::add_group`.  The group is saved and committed first; each
back-referencing role is then saved (a failure is only logged as a
referential-integrity issue) and committed unconditionally. -/
def addGroup (stor : StorageOutcome) (st : DsState) (req : AddGroupRequest) :
    DsResponse × DsState :=
  let name := lower req.name
  if containsA name st.groups then
    (.error .alreadyExists, st)
  else
    match collectRoles st.roles
        (fun role => { role with groups := insert name role.groups }) req.roles with
    | none => (.error .notFound, st)
    | some (roles, foundRoles) =>
      let newGroup : RegisteredGroup :=
        { name := name, desc := req.desc, members := req.members.toFinset,
          roles := roles }
      if stor.saveGroup then
        (.singleGroup newGroup,
          { st with
            groups := insertA name newGroup st.groups,
            roles := foundRoles.foldl (fun rm r => insertA r.name r rm) st.roles })
      else
        (.error .internal, st)

/-- `ds.rs::modify_group`.  Member edits are applied to a clone; the
`add_roles` clones insert the group name, the `remove_roles` clones (taken
from the unmodified roles map) remove it; both lists of clones are
committed in order after the group itself is saved and committed. -/
def modifyGroup (stor : StorageOutcome) (st : DsState) (req : ModifyGroupRequest) :
    DsResponse × DsState :=
  let name := lower req.name
  match lookupA name st.groups with
  | none => (.error .notFound, st)
  | some g =>
    let members1 := req.add_members.foldl (fun s m => insert m s) g.members
    let members2 := req.remove_members.foldl (fun s m => s.erase m) members1
    match collectRoles st.roles
        (fun role => { role with groups := insert name role.groups }) req.add_roles with
    | none => (.error .notFound, st)
    | some (addSet, addClones) =>
      match collectRoles st.roles
          (fun role => { role with groups := role.groups.erase name }) req.remove_roles with
      | none => (.error .notFound, st)
      | some (removeSet, removeClones) =>
        let updated : RegisteredGroup :=
          { g with members := members2, roles := (g.roles ∪ addSet) \ removeSet }
        if stor.saveGroup then
          (.singleGroup updated,
            { st with
              groups := insertA name updated st.groups,
              roles := (addClones ++ removeClones).foldl
                (fun rm r => insertA r.name r rm) st.roles })
        else
          (.error .internal, st)

/-- The role-collection loop of `ds.rs::remove_group` (lines 890-905): for
every role name the group grants, look it up; a missing role is logged and
then `found_role.unwrap()` panics (`none` here).  Found roles are cloned
with the group name removed from their back-reference set. -/
def collectRemoveGroupRoles (rolesMap : List (String × RegisteredRole))
    (gname : String) : List String → Option (List RegisteredRole)
  | [] => some []
  | r :: rest =>
    match lookupA r rolesMap with
    | none => none
    | some found =>
      match collectRemoveGroupRoles rolesMap gname rest with
      | none => none
      | some frs => some ({ found with groups := found.groups.erase gname } :: frs)

/-- `ds.rs::remove_group`.  The role clones are collected (possibly
panicking) before the storage delete; on a successful delete every clone
is saved (failures only logged) and committed.  NOTE (faithful to the
source): `remove_group` never removes the group from the in-memory
`groups` map — there is no `groups.write().remove(&name)` in the function. -/
def removeGroup (stor : StorageOutcome) (st : DsState) (req : RemoveGroupRequest) :
    DsResponse × DsState :=
  let name := lower req.name
  match lookupA name st.groups with
  | none => (.error .notFound, st)
  | some g =>
    match collectRemoveGroupRoles st.roles name (finsetSort g.roles) with
    | none => (.panic, st)
    | some foundRoles =>
      if stor.removeGroup then
        (.singleGroup g,
          { st with
            roles := foundRoles.foldl (fun rm r => insertA r.name r rm) st.roles })
      else
        (.error .internal, st)

/-- `ds.rs::get_groups`: none of the three filters is lowered; the name is
compared verbatim, the member filter is converted (identically) to a
`RegisteredGroupMember` and tested for membership, the role filter is
tested against the group's role set verbatim. -/
def getGroups (st : DsState) (req : GetGroupsRequest) : DsResponse :=
  .multipleGroups
    ((st.groups.filter (fun p =>
        optMatch req.name p.1 &&
        (match req.member with
         | none => true
         | some m => decide (m ∈ p.2.members)) &&
        (match req.role with
         | none => true
         | some r => decide (r ∈ p.2.roles)))).map Prod.snd)

/-- `ds.rs::add_policy`.  The map key is the lowered rule name; the stored
record keeps the rule verbatim. -/
def addPolicy (stor : StorageOutcome) (st : DsState) (req : AddPolicyRequest) :
    DsResponse × DsState :=
  match req.rule with
  | none => (.error .invalidArgument, st)
  | some rule =>
    let name := lower rule.name
    if containsA name st.policies then
      (.error .alreadyExists, st)
    else if stor.savePolicy then
      (.singlePolicy rule, { st with policies := insertA name rule st.policies })
    else
      (.error .internal, st)

/-- `ds.rs::modify_policy`. -/
def modifyPolicy (stor : StorageOutcome) (st : DsState) (req : ModifyPolicyRequest) :
    DsResponse × DsState :=
  match req.rule with
  | none => (.error .invalidArgument, st)
  | some rule =>
    let name := lower rule.name
    if !containsA name st.policies then
      (.error .notFound, st)
    else if stor.savePolicy then
      (.singlePolicy rule, { st with policies := insertA name rule st.policies })
    else
      (.error .internal, st)

/-- `ds.rs::remove_policy`. -/
def removePolicy (stor : StorageOutcome) (st : DsState) (req : RemovePolicyRequest) :
    DsResponse × DsState :=
  let name := lower req.name
  match lookupA name st.policies with
  | none => (.error .notFound, st)
  | some existing =>
    if stor.removePolicy then
      (.singlePolicy existing, { st with policies := eraseA name st.policies })
    else
      (.error .internal, st)

/-- `ds.rs::get_policies`: lowered exact name filter. -/
def getPolicies (st : DsState) (req : GetPoliciesRequest) : DsResponse :=
  let nf := req.name.map lower
  .multiplePolicies
    ((st.policies.filter (fun p => optMatch nf p.1)).map Prod.snd)

/-- `ds.rs::update`: apply a backend-originated change directly to the
in-memory maps (puts overwrite by the record's own key, deletes remove by
key; no re-persisting, no lowering, no cross-record fix-up). -/
def update (st : DsState) : BackendUpdate → DsState
  | .putActor a =>
      let typed := (lookupA a.typestr st.actors).getD []
      { st with actors := insertA a.typestr (insertA a.name a typed) st.actors }
  | .putGroup g => { st with groups := insertA g.name g st.groups }
  | .putPolicyRule p => { st with policies := insertA p.name p st.policies }
  | .putRole r => { st with roles := insertA r.name r st.roles }
  | .putTarget t =>
      let typed := (lookupA t.typestr st.targets).getD []
      { st with targets := insertA t.typestr (insertA t.name t typed) st.targets }
  | .deleteActor typestr name =>
      match lookupA typestr st.actors with
      | none => st
      | some typed => { st with actors := insertA typestr (eraseA name typed) st.actors }
  | .deleteGroup name => { st with groups := eraseA name st.groups }
  | .deletePolicyRule name => { st with policies := eraseA name st.policies }
  | .deleteRole name => { st with roles := eraseA name st.roles }
  | .deleteTarget typestr name =>
      match lookupA typestr st.targets with
      | none => st
      | some typed => { st with targets := insertA typestr (eraseA name typed) st.targets }

/-- `ds.rs::get_target_attributes`: the registered target's attributes, or
the empty map (name and type are used verbatim, not lowered). -/
def getTargetAttributes (st : DsState) (name typestr : String) : AttrMap :=
  match lookupA typestr st.targets with
  | none => []
  | some typed =>
    match lookupA name typed with
    | none => []
    | some t => t.attributes

/-- The working actor of `ds.rs::check`:
`RegisteredActor::from(req.actor.unwrap())` (which lowers the name and type
and converts the attribute table, `actor.rs` lines 36-49) extended by
`extend_actor`. -/
def workingActor (st : DsState) (req : CheckRequest) : RegisteredActor :=
  extendActor st
    { name := lower req.actorName, typestr := lower req.actorTypestr,
      attributes := attrsOfReq req.actorAttributes }

/-- Whether one policy rule applies to a check request: the three `continue`
guards of the policy loop in `ds.rs::check`, conjoined. -/
def ruleApplies (st : DsState) (req : CheckRequest) (p : RegisteredPolicyRule) : Bool :=
  let actor := workingActor st req
  let envAttrs := attrsOfReq req.envAttributes
  (match p.actor_check with | none => true | some ac => ac.check actor) &&
  p.env_attributes.all (fun ea => ea.check envAttrs) &&
  (match p.target_check with
   | none => true
   | some tc => tc.check req.targetName req.targetType
      (getTargetAttributes st req.targetName req.targetType) req.targetAction
      actor.attributes envAttrs)

/-- The policy loop of `ds.rs::check`: `decision` starts as the second
argument (`Deny` at the call site); a matching rule overwrites it with its
own decision and a matching DENY breaks out of the loop immediately. -/
def evalPolicies (m : RegisteredPolicyRule → Bool) :
    List RegisteredPolicyRule → Decide → Decide
  | [], d => d
  | p :: ps, d =>
    if m p then
      match p.decision with
      | .deny => .deny
      | .allow => evalPolicies m ps .allow
    else evalPolicies m ps d

/-- The decision computed by `ds.rs::check` for a request. -/
def checkDecision (st : DsState) (req : CheckRequest) : Decide :=
  evalPolicies (ruleApplies st req) (st.policies.map Prod.snd) .deny

/-- `ds.rs::check`: the full handler reply. -/
def checkDs (st : DsState) (req : CheckRequest) : DsResponse :=
  .checkResult (checkDecision st req)

/-! ## Basic lemmas about the map model and lower-casing -/

theorem toNat_ofNat_of_lt {n : Nat} (h : n < 55296) : (Char.ofNat n).toNat = n := by
  unfold Char.ofNat
  rw [dif_pos (Or.inl h)]
  rfl

theorem asciiLowerChar_idem (c : Char) :
    asciiLowerChar (asciiLowerChar c) = asciiLowerChar c := by
  unfold asciiLowerChar
  by_cases h : 65 ≤ c.toNat ∧ c.toNat ≤ 90
  · rw [if_pos h]
    have hval : c.toNat + 32 < 55296 := by omega
    rw [if_neg]
    rw [toNat_ofNat_of_lt hval]
    omega
  · rw [if_neg h, if_neg h]

theorem lower_data (s : String) : (lower s).data = s.data.map asciiLowerChar := by
  cases s
  rfl

theorem lower_idem (s : String) : lower (lower s) = lower s := by
  apply String.ext
  rw [lower_data, lower_data, List.map_map]
  exact List.map_congr_left (fun c _ => asciiLowerChar_idem c)

/-- A string is (ASCII-)lower-case when lowering it is the identity. -/
def IsLower (s : String) : Prop := lower s = s

instance : DecidablePred IsLower :=
  fun s => inferInstanceAs (Decidable (lower s = s))

theorem lookupA_insertA_self {α : Type} (k : String) (v : α)
    (m : List (String × α)) : lookupA k (insertA k v m) = some v := by
  induction m with
  | nil => simp [insertA, lookupA]
  | cons h t ih =>
    obtain ⟨k₀, v₀⟩ := h
    by_cases hk : k₀ = k
    · subst hk
      simp [insertA, lookupA]
    · simp [insertA, lookupA, hk, ih]

theorem lookupA_insertA_ne {α : Type} {k k' : String} (v : α)
    (m : List (String × α)) (h : k' ≠ k) :
    lookupA k (insertA k' v m) = lookupA k m := by
  induction m with
  | nil => simp [insertA, lookupA, h]
  | cons hd t ih =>
    obtain ⟨k₀, v₀⟩ := hd
    by_cases hk : k₀ = k'
    · subst hk
      simp [insertA, lookupA, h]
    · simp only [insertA, if_neg hk]
      by_cases hk2 : k₀ = k
      · simp [lookupA, hk2]
      · simp [lookupA, hk2, ih]

theorem eraseA_sublist {α : Type} (k : String) (m : List (String × α)) :
    (eraseA k m).Sublist m := by
  induction m with
  | nil => simp [eraseA]
  | cons hd t ih =>
    obtain ⟨k₀, v₀⟩ := hd
    by_cases hk : k₀ = k
    · simp [eraseA, hk]
    · simpa [eraseA, hk] using ih.cons₂ (k₀, v₀)

theorem lookupA_eraseA_ne {α : Type} {k k' : String}
    (m : List (String × α)) (h : k' ≠ k) :
    lookupA k (eraseA k' m) = lookupA k m := by
  induction m with
  | nil => simp [eraseA]
  | cons hd t ih =>
    obtain ⟨k₀, v₀⟩ := hd
    by_cases hk : k₀ = k'
    · subst hk
      simp [eraseA, lookupA, h]
    · by_cases hk2 : k₀ = k
      · subst hk2
        simp [eraseA, lookupA, hk, Ne.symm h]
      · simp [eraseA, lookupA, hk, hk2, ih]

theorem lookupA_eq_none_iff {α : Type} (k : String) (m : List (String × α)) :
    lookupA k m = none ↔ k ∉ m.map Prod.fst := by
  induction m with
  | nil => simp [lookupA]
  | cons hd t ih =>
    obtain ⟨k₀, v₀⟩ := hd
    by_cases hk : k₀ = k
    · simp [lookupA, hk]
    · simp [lookupA, hk, ih, Ne.symm hk]

theorem lookupA_eraseA_self {α : Type} (k : String) (m : List (String × α))
    (hnd : (m.map Prod.fst).Nodup) : lookupA k (eraseA k m) = none := by
  induction m with
  | nil => simp [eraseA, lookupA]
  | cons hd t ih =>
    obtain ⟨k₀, v₀⟩ := hd
    simp only [List.map_cons, List.nodup_cons] at hnd
    by_cases hk : k₀ = k
    · subst hk
      rw [eraseA, if_pos rfl, lookupA_eq_none_iff]
      exact hnd.1
    · simp [eraseA, lookupA, hk, ih hnd.2]

theorem mem_keys_insertA {α : Type} {x k : String} {v : α}
    {m : List (String × α)} (h : x ∈ (insertA k v m).map Prod.fst) :
    x = k ∨ x ∈ m.map Prod.fst := by
  induction m with
  | nil => simpa [insertA] using h
  | cons hd t ih =>
    obtain ⟨k₀, v₀⟩ := hd
    by_cases hk : k₀ = k
    · subst hk
      simpa [insertA] using h
    · simp only [insertA, if_neg hk, List.map_cons, List.mem_cons] at h
      rcases h with h | h
      · subst h
        right
        simp
      · rcases ih h with h | h
        · exact Or.inl h
        · right
          simp [h]

theorem nodup_keys_insertA {α : Type} (k : String) (v : α)
    (m : List (String × α)) (hnd : (m.map Prod.fst).Nodup) :
    ((insertA k v m).map Prod.fst).Nodup := by
  induction m with
  | nil => simp [insertA]
  | cons hd t ih =>
    obtain ⟨k₀, v₀⟩ := hd
    simp only [List.map_cons, List.nodup_cons] at hnd
    by_cases hk : k₀ = k
    · subst hk
      simpa [insertA] using hnd
    · simp only [insertA, if_neg hk, List.map_cons, List.nodup_cons]
      refine ⟨fun hmem => ?_, ih hnd.2⟩
      rcases mem_keys_insertA hmem with h | h
      · exact hk h
      · exact hnd.1 h

theorem nodup_keys_eraseA {α : Type} (k : String) (m : List (String × α))
    (hnd : (m.map Prod.fst).Nodup) : ((eraseA k m).map Prod.fst).Nodup :=
  ((eraseA_sublist k m).map Prod.fst).nodup hnd

theorem lookupA_mem_keys {α : Type} {k : String} {v : α}
    {m : List (String × α)} (h : lookupA k m = some v) :
    k ∈ m.map Prod.fst := by
  by_contra hmem
  rw [← lookupA_eq_none_iff] at hmem
  rw [hmem] at h
  exact Option.noConfusion h

/-- A key that is not lower-case cannot occur in a map whose keys are all
lower-case. -/
theorem lookupA_none_of_not_lower {α : Type} {k : String}
    {m : List (String × α)} (hkeys : ∀ p ∈ m, IsLower p.1)
    (hk : lower k ≠ k) : lookupA k m = none := by
  rw [lookupA_eq_none_iff]
  intro hmem
  obtain ⟨p, hp, hpk⟩ := List.mem_map.mp hmem
  exact hk (hpk ▸ hkeys p hp)

/-! ## The policy evaluator (claim C1) -/

theorem evalPolicies_deny_iff (m : RegisteredPolicyRule → Bool)
    (l : List RegisteredPolicyRule) (d : Decide) :
    evalPolicies m l d = .deny ↔
      (∃ p ∈ l, m p = true ∧ p.decision = .deny) ∨
        (d = .deny ∧ ∀ p ∈ l, m p = false) := by
  induction l generalizing d with
  | nil => simp [evalPolicies]
  | cons p ps ih =>
    by_cases hm : m p = true
    · cases hdec : p.decision with
      | deny =>
        simp only [evalPolicies, hm, if_true, hdec]
        constructor
        · intro _
          exact Or.inl ⟨p, List.mem_cons_self p ps, hm, hdec⟩
        · intro _
          trivial
      | allow =>
        simp only [evalPolicies, hm, if_true, hdec]
        rw [ih]
        constructor
        · rintro (⟨q, hq, hmq, hdq⟩ | ⟨hfalse, -⟩)
          · exact Or.inl ⟨q, List.mem_cons_of_mem p hq, hmq, hdq⟩
          · exact absurd hfalse (by simp)
        · rintro (⟨q, hq, hmq, hdq⟩ | ⟨-, hall⟩)
          · rcases List.mem_cons.mp hq with h | h
            · subst h
              rw [hdec] at hdq
              exact absurd hdq (by simp)
            · exact Or.inl ⟨q, h, hmq, hdq⟩
          · exact absurd (hall p (List.mem_cons_self p ps)) (by simp [hm])
    · have hm' : m p = false := by simpa using hm
      simp only [evalPolicies, hm', Bool.false_eq_true, if_false]
      rw [ih]
      constructor
      · rintro (⟨q, hq, hmq, hdq⟩ | ⟨hd, hall⟩)
        · exact Or.inl ⟨q, List.mem_cons_of_mem p hq, hmq, hdq⟩
        · refine Or.inr ⟨hd, fun q hq => ?_⟩
          rcases List.mem_cons.mp hq with h | h
          · subst h
            exact hm'
          · exact hall q h
      · rintro (⟨q, hq, hmq, hdq⟩ | ⟨hd, hall⟩)
        · rcases List.mem_cons.mp hq with h | h
          · subst h
            exact absurd hmq (by simp [hm'])
          · exact Or.inl ⟨q, h, hmq, hdq⟩
        · exact Or.inr ⟨hd, fun q hq => hall q (List.mem_cons_of_mem p hq)⟩

theorem Decide.eq_of_deny_iff {x y : Decide} (h : x = .deny ↔ y = .deny) :
    x = y := by
  cases x <;> cases y <;> simp_all

/-- C1.  The evaluator of `ds.rs::check` starts from DENY and lets any
matching rule overwrite the decision, short-circuiting on DENY.
Consequently the decision is DENY exactly when some applicable rule decides
DENY or no rule applies at all — in particular the result is DENY with an
empty policy map, a matching DENY beats any number of matching ALLOWs, and
the decision is invariant under any permutation of the policy map's
iteration order. -/
theorem c1_check_default_deny_and_deny_wins (st : DsState) (req : CheckRequest) :
    (checkDecision st req = .deny ↔
      ((∃ p ∈ st.policies.map Prod.snd,
          ruleApplies st req p = true ∧ p.decision = .deny) ∨
        ∀ p ∈ st.policies.map Prod.snd, ruleApplies st req p = false)) ∧
    (∀ l : List RegisteredPolicyRule, l.Perm (st.policies.map Prod.snd) →
      evalPolicies (ruleApplies st req) l .deny = checkDecision st req) ∧
    checkDs st req = .checkResult (checkDecision st req) := by
  refine ⟨?_, ?_, rfl⟩
  · rw [checkDecision, evalPolicies_deny_iff]
    simp
  · intro l hperm
    apply Decide.eq_of_deny_iff
    rw [checkDecision, evalPolicies_deny_iff, evalPolicies_deny_iff]
    constructor
    · rintro (⟨q, hq, hmq, hdq⟩ | ⟨hd, hall⟩)
      · exact Or.inl ⟨q, hperm.mem_iff.mp hq, hmq, hdq⟩
      · exact Or.inr ⟨hd, fun q hq => hall q (hperm.mem_iff.mpr hq)⟩
    · rintro (⟨q, hq, hmq, hdq⟩ | ⟨hd, hall⟩)
      · exact Or.inl ⟨q, hperm.mem_iff.mpr hq, hmq, hdq⟩
      · exact Or.inr ⟨hd, fun q hq => hall q (hperm.mem_iff.mp hq)⟩

/-- Concrete fixtures for the C1 witness: an allow-everything rule and a
deny-everything rule, in both map orders. -/
def ruleAllowAll : RegisteredPolicyRule :=
  { name := "allow-all", desc := none, actor_check := none, env_attributes := [],
    target_check := none, decision := .allow }

def ruleDenyAll : RegisteredPolicyRule :=
  { name := "deny-all", desc := none, actor_check := none, env_attributes := [],
    target_check := none, decision := .deny }

def stC1 : DsState :=
  { DsState.empty with
    policies := [("allow-all", ruleAllowAll), ("deny-all", ruleDenyAll)] }

def reqC1 : CheckRequest :=
  { actorName := "u", actorTypestr := "user", actorAttributes := [],
    envAttributes := [], targetName := "t", targetType := "db",
    targetAction := "read" }

/-- Witness for C1 at a concrete two-rule store: the matching DENY rule
wins over the matching ALLOW rule, in either iteration order. -/
theorem c1_check_default_deny_and_deny_wins_witness :
    checkDecision stC1 reqC1 = Decide.deny ∧
      evalPolicies (ruleApplies stC1 reqC1) [ruleDenyAll, ruleAllowAll] .deny =
        checkDecision stC1 reqC1 :=
  ⟨(c1_check_default_deny_and_deny_wins stC1 reqC1).1.mpr
      (Or.inl ⟨ruleDenyAll, by decide, by decide, rfl⟩),
    (c1_check_default_deny_and_deny_wins stC1 reqC1).2.1
      [ruleDenyAll, ruleAllowAll] (by decide)⟩

/-! ## Bucket derivation (claim C8) -/

/-- C8.  `RegisteredActor::bucket` is a pure function of the
`(typestr, name)` key: actors with equal keys (whatever their attributes)
get equal buckets; the value is the 64-bit hash of `typestr ++ "/" ++ name`
reduced modulo 100, hence below 100 and in particular below 256, so the
`u8` conversion in `actor.rs` can never fail. -/
theorem c8_bucket_deterministic_and_in_range (a b : RegisteredActor) :
    (a.typestr = b.typestr → a.name = b.name → a.bucket = b.bucket) ∧
    a.bucket = metroHash64 (a.typestr ++ "/" ++ a.name) % 100 ∧
    a.bucket < 100 ∧ a.bucket < 256 := by
  refine ⟨fun ht hn => ?_, rfl, ?_, ?_⟩
  · simp [RegisteredActor.bucket, ht, hn]
  · exact Nat.mod_lt _ (by norm_num)
  · exact lt_trans (Nat.mod_lt _ (by norm_num)) (by norm_num)

/-- Witness for C8: two concrete actors sharing the key
`("user", "kaitlyn")` but with different attribute sets get the same
bucket, and the bucket is below 100. -/
theorem c8_bucket_deterministic_and_in_range_witness :
    RegisteredActor.bucket { name := "kaitlyn", typestr := "user", attributes := [] } =
      RegisteredActor.bucket
        { name := "kaitlyn", typestr := "user",
          attributes := [("role", {"admin"})] } ∧
    RegisteredActor.bucket { name := "kaitlyn", typestr := "user", attributes := [] } < 100 :=
  ⟨(c8_bucket_deterministic_and_in_range
      { name := "kaitlyn", typestr := "user", attributes := [] }
      { name := "kaitlyn", typestr := "user",
        attributes := [("role", {"admin"})] }).1 rfl rfl,
    (c8_bucket_deterministic_and_in_range
      { name := "kaitlyn", typestr := "user", attributes := [] }
      { name := "kaitlyn", typestr := "user", attributes := [] }).2.2.1⟩

/-! ## The `remove_group` unwrap (claim C10) -/

theorem collectRemoveGroupRoles_eq_none_iff
    (rolesMap : List (String × RegisteredRole)) (gname : String)
    (l : List String) :
    collectRemoveGroupRoles rolesMap gname l = none ↔
      ∃ r ∈ l, lookupA r rolesMap = none := by
  induction l with
  | nil => simp [collectRemoveGroupRoles]
  | cons r rest ih =>
    cases hr : lookupA r rolesMap with
    | none => simp [collectRemoveGroupRoles, hr]
    | some found =>
      cases hc : collectRemoveGroupRoles rolesMap gname rest with
      | none =>
        rw [hc] at ih
        simp only [collectRemoveGroupRoles, hr, hc, List.mem_cons]
        constructor
        · intro _
          obtain ⟨x, hx, hnone⟩ := ih.mp rfl
          exact ⟨x, Or.inr hx, hnone⟩
        · intro _
          trivial
      | some frs =>
        rw [hc] at ih
        simp only [collectRemoveGroupRoles, hr, hc, List.mem_cons]
        constructor
        · intro h
          exact absurd h (by simp)
        · rintro ⟨x, hx | hx, hnone⟩
          · subst hx
            rw [hr] at hnone
            exact Option.noConfusion hnone
          · exact absurd (ih.mpr ⟨x, hx, hnone⟩) (by simp)

/-- C10.  If the group exists and any role name in its `roles` set is
absent from the roles map — a state the backend `DeleteRole` update can
produce, since `ds.rs::update` removes a role without clearing it from
groups — then `remove_group` hits `found_role.unwrap()` on `None` and
panics without replying or changing state; when every named role exists the
unwrap cannot panic. -/
theorem c10_remove_group_unwrap_panics (stor : StorageOutcome) (st : DsState)
    (req : RemoveGroupRequest) (g : RegisteredGroup)
    (hg : lookupA (lower req.name) st.groups = some g) :
    ((∃ r ∈ g.roles, lookupA r st.roles = none) →
        removeGroup stor st req = (.panic, st)) ∧
    ((∀ r ∈ g.roles, lookupA r st.roles ≠ none) →
        (removeGroup stor st req).1 ≠ .panic) := by
  constructor
  · rintro ⟨r, hr, hnone⟩
    have hcol : collectRemoveGroupRoles st.roles (lower req.name)
        (finsetSort g.roles) = none := by
      rw [collectRemoveGroupRoles_eq_none_iff]
      exact ⟨r, ((mem_finsetSort g.roles r).mpr hr), hnone⟩
    simp only [removeGroup, hg, hcol]
  · intro hall
    cases hc : collectRemoveGroupRoles st.roles (lower req.name)
        (finsetSort g.roles) with
    | none =>
      exfalso
      rw [collectRemoveGroupRoles_eq_none_iff] at hc
      obtain ⟨r, hr, hnone⟩ := hc
      exact hall r ((mem_finsetSort g.roles r).mp hr) hnone
    | some frs =>
      simp only [removeGroup, hg, hc]
      by_cases hstor : stor.removeGroup = true
      · simp [hstor]
      · simp [hstor]

/-- Fixture for the C10 witness: add role `admin`, add group `g` granting
it, then apply a backend `DeleteRole("admin")` update. -/
def stC10 : DsState :=
  update
    ((addGroup .allOk
        ((addRole .allOk DsState.empty { name := "admin" }).2)
        { name := "g", desc := none, members := [], roles := ["admin"] }).2)
    (.deleteRole "admin")

def groupC10 : RegisteredGroup :=
  { name := "g", desc := none, members := ∅, roles := {"admin"} }

/-- Witness for C10: in the concrete reachable state `stC10` the group `g`
still lists role `admin`, the role is gone, and `remove_group` panics. -/
theorem c10_remove_group_unwrap_panics_witness :
    lookupA "g" stC10.groups = some groupC10 ∧
      "admin" ∈ groupC10.roles ∧
      lookupA "admin" stC10.roles = none ∧
      removeGroup .allOk stC10 { name := "g" } = (.panic, stC10) :=
  ⟨by decide, by decide, by decide,
    (c10_remove_group_unwrap_panics .allOk stC10 { name := "g" } groupC10
        (by decide)).1 ⟨"admin", by decide, by decide⟩⟩

/-! ## Group/role referential integrity (claims C3 and C9) -/

/-- The back-reference half of the invariant at one edge: role `r` exists
and its `groups` set contains `gname`. -/
def roleBackRefOk (st : DsState) (r gname : String) : Bool :=
  match lookupA r st.roles with
  | some rr => decide (gname ∈ rr.groups)
  | none => false

/-- The forward half at one edge: group `g` exists and its `roles` set
contains `rname`. -/
def groupForwardRefOk (st : DsState) (g rname : String) : Bool :=
  match lookupA g st.groups with
  | some gg => decide (rname ∈ gg.roles)
  | none => false

/-- The referential-integrity invariant of the spec (I1/I2): every role a
group lists exists and points back at the group, and every group a role
points at exists and lists the role. -/
def refIntegrityB (st : DsState) : Bool :=
  st.groups.all (fun p => decide (∀ r ∈ p.2.roles, roleBackRefOk st r p.1 = true)) &&
  st.roles.all (fun q => decide (∀ g ∈ q.2.groups, groupForwardRefOk st g q.1 = true))

/-- Successful AddRole(admin) then AddGroup(g, roles=[admin]). -/
def stC3b : DsState :=
  (addGroup .allOk ((addRole .allOk DsState.empty { name := "admin" }).2)
    { name := "g", desc := none, members := [], roles := ["admin"] }).2

/-- C3 (failing input).  After the successful sequence AddRole(admin);
AddGroup(g, roles=[admin]); RemoveGroup(g), the group `g` is still present
in the in-memory groups map with `roles = {admin}` (because
`ds.rs::remove_group` never removes the group from memory) while role
`admin`'s back-reference set has been emptied, so the referential-integrity
invariant is violated by a sequence of successful operations. -/
theorem c3_referential_integrity_broken_by_remove_group :
    (addRole .allOk DsState.empty { name := "admin" }).1.isOk = true ∧
    (addGroup .allOk ((addRole .allOk DsState.empty { name := "admin" }).2)
      { name := "g", desc := none, members := [], roles := ["admin"] }).1.isOk = true ∧
    (removeGroup .allOk stC3b { name := "g" }).1 =
      .singleGroup { name := "g", desc := none, members := ∅, roles := {"admin"} } ∧
    lookupA "g" (removeGroup .allOk stC3b { name := "g" }).2.groups =
      some { name := "g", desc := none, members := ∅, roles := {"admin"} } ∧
    (lookupA "admin" (removeGroup .allOk stC3b { name := "g" }).2.roles).map
      RegisteredRole.groups = some (∅ : Finset String) ∧
    refIntegrityB (removeGroup .allOk stC3b { name := "g" }).2 = false ∧
    refIntegrityB stC3b = true := by
  decide

/-- The state after the C9 scenario's three successful mutations:
AddRole(admin); AddRole(user); AddGroup(administrators, roles=[admin,user]). -/
def stC9c : DsState :=
  (addGroup .allOk
    ((addRole .allOk ((addRole .allOk DsState.empty { name := "admin" }).2)
        { name := "user" }).2)
    { name := "administrators", desc := none, members := [],
      roles := ["admin", "user"] }).2

/-- The C9 state after the subsequent RemoveGroup(administrators). -/
def stC9d : DsState :=
  (removeGroup .allOk stC9c { name := "administrators" }).2

/-- C9 (failing input).  In memory the back-reference is maintained: after
the adds, role `admin`'s `groups` is exactly `{administrators}`, and after
RemoveGroup it is empty.  But the reply of GetRoles converts through
`role.rs`'s `From<RegisteredRole> for Role`, which keeps only the name, so
the returned role record carries no `groups` back-reference at all — in
both states the reply is the bare record `⟨admin⟩`. -/
theorem c9_get_role_reply_lacks_groups :
    (lookupA "admin" stC9c.roles).map RegisteredRole.groups =
      some ({"administrators"} : Finset String) ∧
    getRoles stC9c { name := some "admin" } =
      .multipleRoles [{ name := "admin" }] ∧
    (lookupA "admin" stC9d.roles).map RegisteredRole.groups =
      some (∅ : Finset String) ∧
    getRoles stC9d { name := some "admin" } =
      .multipleRoles [{ name := "admin" }] := by
  decide

/-! ## Actor expansion on collision (claim C4) -/

theorem lookupA_expandStep (m : GroupMember) (a : RegisteredActor)
    (p : String × RegisteredGroup) {k : String}
    (h1 : k ≠ "member-of") (h2 : k ≠ "has-role") :
    lookupA k (expandStep m a p).attributes = lookupA k a.attributes := by
  unfold expandStep
  by_cases hm : m ∈ p.2.members
  · simp only [hm, if_true]
    rw [lookupA_insertA_ne _ _ (fun h => h2 h.symm),
      lookupA_insertA_ne _ _ (fun h => h1 h.symm)]
  · simp [hm]

theorem lookupA_foldl_expandStep (m : GroupMember)
    (l : List (String × RegisteredGroup)) (a : RegisteredActor) {k : String}
    (h1 : k ≠ "member-of") (h2 : k ≠ "has-role") :
    lookupA k (l.foldl (expandStep m) a).attributes = lookupA k a.attributes := by
  induction l generalizing a with
  | nil => rfl
  | cons p t ih =>
    rw [List.foldl_cons, ih (expandStep m a p), lookupA_expandStep m a p h1 h2]

theorem lookupA_expandGroupsAndRoles (st : DsState) (a : RegisteredActor)
    {k : String} (h1 : k ≠ "member-of") (h2 : k ≠ "has-role") :
    lookupA k (expandGroupsAndRoles st a).attributes = lookupA k a.attributes :=
  lookupA_foldl_expandStep _ st.groups a h1 h2

/-- The pointwise effect of `HashMap::extend`: each binding of `src`
replaces the binding of the same key in `dst`. -/
theorem lookupA_foldl_insert (src dst : AttrMap) (k : String)
    (hnd : (src.map Prod.fst).Nodup) :
    lookupA k (src.foldl (fun m kv => insertA kv.1 kv.2 m) dst) =
      match lookupA k src with
      | some v => some v
      | none => lookupA k dst := by
  induction src generalizing dst with
  | nil => rfl
  | cons kv t ih =>
    obtain ⟨k₀, v₀⟩ := kv
    simp only [List.map_cons, List.nodup_cons] at hnd
    rw [List.foldl_cons, ih _ hnd.2]
    by_cases hk : k₀ = k
    · subst hk
      have ht : lookupA k₀ t = none := (lookupA_eq_none_iff k₀ t).mpr hnd.1
      rw [ht]
      simp only [lookupA, if_pos rfl]
      rw [lookupA_insertA_self]
      simp
    · simp only [lookupA, if_neg hk]
      cases lookupA k t with
      | some v => rfl
      | none => rw [lookupA_insertA_ne _ _ hk]

/-- C4 (amended).  When the check request's actor matches a registered
actor, `extend_actor`'s `HashMap::extend` makes the registered value-set
REPLACE the caller-supplied set on key collision (it is not a union): for
every key other than the derived `member-of` / `has-role` keys, the
expanded actor maps the key to the registered set when the registered
actor has the key, and to the caller-supplied set otherwise. -/
theorem c4_extend_actor_registered_overwrites (st : DsState)
    (a found : RegisteredActor) (typed : List (String × RegisteredActor))
    (ht : lookupA a.typestr st.actors = some typed)
    (hf : lookupA a.name typed = some found)
    (hnd : (found.attributes.map Prod.fst).Nodup)
    (k : String) (h1 : k ≠ "member-of") (h2 : k ≠ "has-role") :
    lookupA k (extendActor st a).attributes =
      match lookupA k found.attributes with
      | some v => some v
      | none => lookupA k a.attributes := by
  simp only [extendActor, ht, hf]
  rw [lookupA_expandGroupsAndRoles _ _ h1 h2]
  exact lookupA_foldl_insert found.attributes a.attributes k hnd

/-- Fixtures for the C4 counterexample: the caller supplies `k:{a}`, the
registered actor stores `k:{b}`. -/
def regC4 : RegisteredActor :=
  { name := "u", typestr := "user", attributes := [("k", {"b"})] }

def stC4 : DsState :=
  { DsState.empty with actors := [("user", [("u", regC4)])] }

def actorC4 : RegisteredActor :=
  { name := "u", typestr := "user", attributes := [("k", {"a"})] }

/-- C4 (counterexample).  The caller supplied value `a` for key `k` and the
registered actor stores `{b}`; the expanded actor maps `k` to `{b}` alone —
not to the union `{a, b}` — so the caller-supplied value is lost. -/
theorem c4_union_claim_counterexample :
    lookupA "k" actorC4.attributes = some ({"a"} : Finset String) ∧
    lookupA "k" regC4.attributes = some ({"b"} : Finset String) ∧
    lookupA "k" (extendActor stC4 actorC4).attributes = some ({"b"} : Finset String) ∧
    lookupA "k" (extendActor stC4 actorC4).attributes ≠
      some ({"a", "b"} : Finset String) := by
  decide

/-- Witness for the amended C4 at the concrete fixture. -/
theorem c4_extend_actor_registered_overwrites_witness :
    lookupA "k" (extendActor stC4 actorC4).attributes =
      match lookupA "k" regC4.attributes with
      | some v => some v
      | none => lookupA "k" actorC4.attributes :=
  c4_extend_actor_registered_overwrites stC4 actorC4 regC4 [("u", regC4)]
    (by decide) (by decide) (by decide) "k" (by decide) (by decide)

/-! ## Missing-role errors in group writes (claim C6) -/

theorem collectRoles_eq_none_iff (rolesMap : List (String × RegisteredRole))
    (upd : RegisteredRole → RegisteredRole) (l : List String) :
    collectRoles rolesMap upd l = none ↔
      ∃ r ∈ l, lookupA (lower r) rolesMap = none := by
  induction l with
  | nil => simp [collectRoles]
  | cons r rest ih =>
    cases hr : lookupA (lower r) rolesMap with
    | none => simp [collectRoles, hr]
    | some found =>
      cases hc : collectRoles rolesMap upd rest with
      | none =>
        rw [hc] at ih
        simp only [collectRoles, hr, hc, List.mem_cons]
        constructor
        · intro _
          obtain ⟨x, hx, hnone⟩ := ih.mp rfl
          exact ⟨x, Or.inr hx, hnone⟩
        · intro _
          trivial
      | some pr =>
        rw [hc] at ih
        simp only [collectRoles, hr, hc, List.mem_cons]
        constructor
        · intro h
          exact absurd h (by simp)
        · rintro ⟨x, hx | hx, hnone⟩
          · subst hx
            rw [hr] at hnone
            exact Option.noConfusion hnone
          · exact absurd (ih.mpr ⟨x, hx, hnone⟩) (by simp)

/-- C6 (counterexample).  AddGroup naming a role that does not exist fails
with NOT_FOUND (`Status::not_found("Role {} not found")` in
`ds.rs::add_group`), not with FAILED_PRECONDITION as the claim states. -/
theorem c6_failed_precondition_counterexample :
    addGroup .allOk DsState.empty
        { name := "g", desc := none, members := [], roles := ["r"] } =
      (.error .notFound, DsState.empty) ∧
    (addGroup .allOk DsState.empty
        { name := "g", desc := none, members := [], roles := ["r"] }).1 ≠
      .error .failedPrecondition := by
  decide

/-- C6 (amended).  An AddGroup whose group name is free, or a ModifyGroup
on an existing group, that names a role absent from the roles map (in
`roles` / `add_roles` / `remove_roles`) fails with error kind NotFound —
not FailedPrecondition — and leaves the state exactly unchanged. -/
theorem c6_missing_role_not_found_state_unchanged (stor : StorageOutcome)
    (st : DsState) :
    (∀ req : AddGroupRequest, containsA (lower req.name) st.groups = false →
      (∃ r ∈ req.roles, lookupA (lower r) st.roles = none) →
      addGroup stor st req = (.error .notFound, st)) ∧
    (∀ (req : ModifyGroupRequest) (g : RegisteredGroup),
      lookupA (lower req.name) st.groups = some g →
      ((∃ r ∈ req.add_roles, lookupA (lower r) st.roles = none) ∨
        ((∀ r ∈ req.add_roles, lookupA (lower r) st.roles ≠ none) ∧
          ∃ r ∈ req.remove_roles, lookupA (lower r) st.roles = none)) →
      modifyGroup stor st req = (.error .notFound, st)) := by
  constructor
  · intro req hfree hmissing
    have hcol : collectRoles st.roles
        (fun role => { role with groups := insert (lower req.name) role.groups })
        req.roles = none :=
      (collectRoles_eq_none_iff _ _ _).mpr hmissing
    simp only [addGroup, hfree, Bool.false_eq_true, if_false, hcol]
  · intro req g hg hmissing
    rcases hmissing with hma | ⟨hall, hmr⟩
    · have hcol : collectRoles st.roles
          (fun role => { role with groups := insert (lower req.name) role.groups })
          req.add_roles = none :=
        (collectRoles_eq_none_iff _ _ _).mpr hma
      simp only [modifyGroup, hg, hcol]
    · have hne : collectRoles st.roles
          (fun role => { role with groups := insert (lower req.name) role.groups })
          req.add_roles ≠ none := by
        intro h
        obtain ⟨r, hr, hnone⟩ := (collectRoles_eq_none_iff _ _ _).mp h
        exact hall r hr hnone
      obtain ⟨pr, hpr⟩ := Option.ne_none_iff_exists'.mp hne
      obtain ⟨addSet, addClones⟩ := pr
      have hcol : collectRoles st.roles
          (fun role => { role with groups := role.groups.erase (lower req.name) })
          req.remove_roles = none :=
        (collectRoles_eq_none_iff _ _ _).mpr hmr
      simp only [modifyGroup, hg, hpr, hcol]

/-- Witness for the amended C6: a concrete ModifyGroup with an existing
`add_roles` entry and a missing `remove_roles` entry fails NotFound with
the state unchanged. -/
theorem c6_missing_role_not_found_state_unchanged_witness :
    modifyGroup .allOk stC3b
        { name := "g", add_members := [], remove_members := [],
          add_roles := ["admin"], remove_roles := ["ghost"] } =
      (.error .notFound, stC3b) :=
  (c6_missing_role_not_found_state_unchanged .allOk stC3b).2
    { name := "g", add_members := [], remove_members := [],
      add_roles := ["admin"], remove_roles := ["ghost"] }
    { name := "g", desc := none, members := ∅, roles := {"admin"} }
    (by decide)
    (Or.inr ⟨by decide, ⟨"ghost", by decide, by decide⟩⟩)

/-! ## Case folding of keys and filters (claim C5) -/

theorem optMapLower_idem (o : Option String) :
    (o.map lower).map lower = o.map lower := by
  cases o with
  | none => rfl
  | some s =>
    simp [lower_idem]

theorem containsA_false_iff {α : Type} (k : String) (m : List (String × α)) :
    containsA k m = false ↔ lookupA k m = none := by
  unfold containsA
  cases lookupA k m <;> simp

theorem insertA_append_of_not_mem {α : Type} (k : String) (v : α)
    (m : List (String × α)) (h : lookupA k m = none) :
    insertA k v m = m ++ [(k, v)] := by
  induction m with
  | nil => rfl
  | cons hd t ih =>
    obtain ⟨k₀, v₀⟩ := hd
    by_cases hk : k₀ = k
    · subst hk
      simp [lookupA] at h
    · simp only [lookupA, if_neg hk] at h
      simp [insertA, hk, ih h]

theorem filter_key_eq_nil {α : Type} (k : String) (m : List (String × α))
    (h : lookupA k m = none) :
    m.filter (fun p => optMatch (some k) p.1) = [] := by
  rw [List.filter_eq_nil_iff]
  intro p hp
  simp only [optMatch, decide_eq_true_eq]
  intro heq
  rw [lookupA_eq_none_iff] at h
  exact h (List.mem_map.mpr ⟨p, hp, heq⟩)

/-- Fixture for the C5 counterexample: a lowercase role and a lowercase
group are stored. -/
def stC5 : DsState :=
  { DsState.empty with
    roles := [("admin", { name := "admin", groups := ∅ })],
    groups := [("g", { name := "g", desc := none, members := ∅, roles := ∅ })] }

/-- C5 (counterexample).  `get_roles` and `get_groups` do not lower their
exact name filters: the stored lowercase role `admin` is not matched by the
mixed-case filter `Admin`, and the stored group `g` is not matched by `G`,
although both mixed-case keys fold to the stored keys. -/
theorem c5_mixed_case_get_counterexample :
    lookupA "admin" stC5.roles = some { name := "admin", groups := ∅ } ∧
    lower "Admin" = "admin" ∧
    getRoles stC5 { name := some "Admin" } = .multipleRoles [] ∧
    lookupA "g" stC5.groups =
      some { name := "g", desc := none, members := ∅, roles := ∅ } ∧
    lower "G" = "g" ∧
    getGroups stC5 { name := some "G", member := none, role := none } =
      .multipleGroups [] := by
  decide

/-- C5 (amended).  Every Add and Remove folds its key arguments to
lowercase before comparison, and GetTargets, GetActors and GetPolicies
fold their exact filters — but GetRoles and GetGroups compare their name
filters verbatim (case-sensitively), so there a mixed-case filter does not
match a stored lowercase key.  Concretely: (1)-(3) the three folding Gets
are invariant under lowering their filters; (4) every Remove and (5) the
Add of targets, actors, roles and groups are invariant under lowering the
key fields of the request; (6) AddPolicy keys the stored rule by the
lowered rule name, so a subsequent GetPolicies with the original mixed-case
name finds exactly the new rule; (7)-(8) on a store whose role/group keys
are all lowercase, GetRoles and GetGroups with a non-lowercase name filter
return nothing. -/
theorem c5_case_folding_amended (stor : StorageOutcome) (st : DsState) :
    (∀ q : GetTargetsRequest, getTargets st q =
      getTargets st { name := q.name.map lower, typestr := q.typestr.map lower }) ∧
    (∀ q : GetActorsRequest, getActors st q =
      getActors st { name := q.name.map lower, typestr := q.typestr.map lower }) ∧
    (∀ q : GetPoliciesRequest, getPolicies st q =
      getPolicies st { name := q.name.map lower }) ∧
    (∀ req : RemoveTargetRequest, removeTarget stor st req =
      removeTarget stor st { name := lower req.name, typestr := lower req.typestr }) ∧
    (∀ req : RemoveActorRequest, removeActor stor st req =
      removeActor stor st { name := lower req.name, typestr := lower req.typestr }) ∧
    (∀ req : RemoveRoleRequest, removeRole stor st req =
      removeRole stor st { name := lower req.name }) ∧
    (∀ req : RemoveGroupRequest, removeGroup stor st req =
      removeGroup stor st { name := lower req.name }) ∧
    (∀ req : RemovePolicyRequest, removePolicy stor st req =
      removePolicy stor st { name := lower req.name }) ∧
    (∀ req : AddTargetRequest, addTarget stor st req =
      addTarget stor st { req with name := lower req.name, typestr := lower req.typestr }) ∧
    (∀ req : AddActorRequest, addActor stor st req =
      addActor stor st { req with name := lower req.name, typestr := lower req.typestr }) ∧
    (∀ req : AddRoleRequest, addRole stor st req =
      addRole stor st { name := lower req.name }) ∧
    (∀ req : AddGroupRequest, addGroup stor st req =
      addGroup stor st { req with name := lower req.name }) ∧
    (∀ rule : RegisteredPolicyRule,
      containsA (lower rule.name) st.policies = false → stor.savePolicy = true →
      getPolicies (addPolicy stor st { rule := some rule }).2
          { name := some rule.name } = .multiplePolicies [rule]) ∧
    (∀ f : String, (∀ p ∈ st.roles, IsLower p.1) → lower f ≠ f →
      getRoles st { name := some f } = .multipleRoles []) ∧
    (∀ f : String, (∀ p ∈ st.groups, IsLower p.1) → lower f ≠ f →
      getGroups st { name := some f, member := none, role := none } =
        .multipleGroups []) := by
  refine ⟨?_, ?_, ?_, ?_, ?_, ?_, ?_, ?_, ?_, ?_, ?_, ?_, ?_, ?_, ?_⟩
  · intro q
    simp only [getTargets, optMapLower_idem]
  · intro q
    simp only [getActors, optMapLower_idem]
  · intro q
    simp only [getPolicies, optMapLower_idem]
  · intro req
    simp only [removeTarget, lower_idem]
  · intro req
    simp only [removeActor, lower_idem]
  · intro req
    simp only [removeRole, lower_idem]
  · intro req
    simp only [removeGroup, lower_idem]
  · intro req
    simp only [removePolicy, lower_idem]
  · intro req
    simp only [addTarget, lower_idem]
  · intro req
    simp only [addActor, lower_idem]
  · intro req
    simp only [addRole, lower_idem]
  · intro req
    simp only [addGroup, lower_idem]
  · intro rule hfree hsave
    have hnone : lookupA (lower rule.name) st.policies = none :=
      (containsA_false_iff _ _).mp hfree
    simp only [addPolicy, hfree, Bool.false_eq_true, if_false, hsave, if_true]
    simp only [getPolicies, Option.map]
    rw [insertA_append_of_not_mem _ _ _ hnone, List.filter_append,
      filter_key_eq_nil _ _ hnone]
    simp [optMatch]
  · intro f hkeys hf
    simp only [getRoles]
    rw [lookupA_none_of_not_lower hkeys hf]
  · intro f hkeys hf
    simp only [getGroups]
    rw [List.filter_eq_nil_iff.mpr ?_]
    · rfl
    · intro p hp
      simp only [optMatch, Bool.and_eq_true, decide_eq_true_eq, and_true]
      intro heq
      exact absurd (heq ▸ hkeys p hp) hf

/-- Witness for the amended C5: the folding Get (targets) and the
case-sensitive Get (roles) at concrete inputs. -/
theorem c5_case_folding_amended_witness :
    getRoles stC5 { name := some "Root" } = .multipleRoles [] ∧
    removeRole .allOk stC5 { name := "ADMIN" } =
      removeRole .allOk stC5 { name := "admin" } :=
  ⟨(c5_case_folding_amended .allOk stC5).2.2.2.2.2.2.2.2.2.2.2.2.2.1 "Root"
      (by decide) (by decide),
    by
      have h := (c5_case_folding_amended .allOk stC5).2.2.2.2.2.1 { name := "ADMIN" }
      have hl : lower "ADMIN" = "admin" := by decide
      rw [hl] at h
      exact h⟩

/-! ## Modify-target semantics (claim C7) -/

theorem lookupA_of_mem_nodup {α : Type} {k : String} {v : α}
    {l : List (String × α)} (hnd : (l.map Prod.fst).Nodup)
    (hmem : (k, v) ∈ l) : lookupA k l = some v := by
  induction l with
  | nil => exact absurd hmem (List.not_mem_nil _)
  | cons hd t ih =>
    obtain ⟨k₀, v₀⟩ := hd
    simp only [List.map_cons, List.nodup_cons] at hnd
    rcases List.mem_cons.mp hmem with h | h
    · rw [Prod.mk.injEq] at h
      obtain ⟨hk, hv⟩ := h
      subst hk
      subst hv
      simp [lookupA]
    · have hk : k₀ ≠ k := by
        intro heq
        subst heq
        exact hnd.1 (List.mem_map.mpr ⟨(k₀, v), h, rfl⟩)
      simp only [lookupA, if_neg hk]
      exact ih hnd.2 h

theorem nodup_keys_foldl_applyAddAttr (l : List (String × List String))
    (m : AttrMap) (hnd : (m.map Prod.fst).Nodup) :
    ((l.foldl applyAddAttr m).map Prod.fst).Nodup := by
  induction l generalizing m with
  | nil => exact hnd
  | cons kv t ih =>
    rw [List.foldl_cons]
    exact ih _ (nodup_keys_insertA _ _ _ hnd)

theorem nodup_keys_applyRemoveAttr (kv : String × List String) (m : AttrMap)
    (hnd : (m.map Prod.fst).Nodup) :
    ((applyRemoveAttr m kv).map Prod.fst).Nodup := by
  unfold applyRemoveAttr
  cases lookupA kv.1 m with
  | none => exact hnd
  | some cur =>
    by_cases h : cur \ kv.2.toFinset = ∅
    · simp only [h, if_pos rfl]
      exact nodup_keys_eraseA _ _ hnd
    · simp only [if_neg h]
      exact nodup_keys_insertA _ _ _ hnd

/-- Pointwise effect of the `add_attributes` loop of
`ds.rs::modify_target` / `modify_actor`. -/
theorem lookupA_foldl_applyAddAttr (l : List (String × List String))
    (m : AttrMap) (k : String) (hnd : (l.map Prod.fst).Nodup) :
    lookupA k (l.foldl applyAddAttr m) =
      match lookupA k l with
      | some vs => some ((lookupA k m).getD ∅ ∪ vs.toFinset)
      | none => lookupA k m := by
  induction l generalizing m with
  | nil => rfl
  | cons kv t ih =>
    obtain ⟨k₀, vs₀⟩ := kv
    simp only [List.map_cons, List.nodup_cons] at hnd
    rw [List.foldl_cons, ih _ hnd.2]
    by_cases hk : k₀ = k
    · subst hk
      have ht : lookupA k₀ t = none := (lookupA_eq_none_iff k₀ t).mpr hnd.1
      unfold applyAddAttr
      simp [ht, lookupA, lookupA_insertA_self]
    · simp only [lookupA, if_neg hk]
      have hm : lookupA k (applyAddAttr m (k₀, vs₀)) = lookupA k m := by
        unfold applyAddAttr
        exact lookupA_insertA_ne _ _ hk
      rw [hm]

/-- Pointwise effect of the `remove_attributes` loop of
`ds.rs::modify_target` / `modify_actor`, including the key drop when the
remaining set is empty. -/
theorem lookupA_foldl_applyRemoveAttr (l : List (String × List String))
    (m : AttrMap) (k : String) (hndl : (l.map Prod.fst).Nodup)
    (hndm : (m.map Prod.fst).Nodup) :
    lookupA k (l.foldl applyRemoveAttr m) =
      match lookupA k l with
      | none => lookupA k m
      | some vs =>
        match lookupA k m with
        | none => none
        | some s => if s \ vs.toFinset = ∅ then none else some (s \ vs.toFinset) := by
  induction l generalizing m with
  | nil => rfl
  | cons kv t ih =>
    obtain ⟨k₀, vs₀⟩ := kv
    simp only [List.map_cons, List.nodup_cons] at hndl
    rw [List.foldl_cons, ih _ hndl.2 (nodup_keys_applyRemoveAttr _ _ hndm)]
    by_cases hk : k₀ = k
    · subst hk
      have ht : lookupA k₀ t = none := (lookupA_eq_none_iff k₀ t).mpr hndl.1
      unfold applyRemoveAttr
      cases hm : lookupA k₀ m with
      | none => simp [ht, hm, lookupA]
      | some s =>
        by_cases hd : s \ vs₀.toFinset = ∅
        · simp [ht, hm, hd, lookupA, lookupA_eraseA_self k₀ m hndm]
        · simp [ht, hm, hd, lookupA, lookupA_insertA_self]
    · simp only [lookupA, if_neg hk]
      have hm : lookupA k (applyRemoveAttr m (k₀, vs₀)) = lookupA k m := by
        unfold applyRemoveAttr
        cases lookupA k₀ m with
        | none => rfl
        | some s =>
          by_cases hd : s \ vs₀.toFinset = ∅
          · simp only [hd, if_pos rfl]
            exact lookupA_eraseA_ne _ hk
          · simp only [if_neg hd]
            exact lookupA_insertA_ne _ _ hk
      rw [hm]

/-- The `add_actions` loop inserts the lowered actions. -/
theorem foldl_insert_lower (l : List String) (s : Finset String) :
    l.foldl (fun acc a => insert (lower a) acc) s =
      s ∪ (l.map lower).toFinset := by
  induction l generalizing s with
  | nil => simp
  | cons a t ih =>
    rw [List.foldl_cons, ih, List.map_cons, List.toFinset_cons,
      Finset.insert_union, Finset.union_insert]

/-- The `remove_actions` loop erases the lowered actions. -/
theorem foldl_erase_lower (l : List String) (s : Finset String) :
    l.foldl (fun acc a => acc.erase (lower a)) s =
      s \ (l.map lower).toFinset := by
  induction l generalizing s with
  | nil => simp
  | cons a t ih =>
    rw [List.foldl_cons, ih, List.map_cons, List.toFinset_cons]
    ext x
    simp only [Finset.mem_sdiff, Finset.mem_erase, Finset.mem_insert]
    tauto

/-- Fixtures for the C7 counterexample: an existing target with no
attributes, modified with `add_attributes = {k: []}`. -/
def tgtC7 : RegisteredTarget :=
  { name := "t", typestr := "db", actions := ∅, attributes := [] }

def stC7 : DsState :=
  { DsState.empty with targets := [("db", [("t", tgtC7)])] }

def reqC7 : ModifyTargetRequest :=
  { name := "t", typestr := "db", add_actions := [], remove_actions := [],
    add_attributes := [("k", [])], remove_attributes := [] }

/-- C7 (counterexample).  A ModifyTarget whose `add_attributes` carries the
key `k` with an empty value list creates an entry `k ↦ ∅` via
`entry(key).or_default()`, and the empty-set prune only runs for keys named
in `remove_attributes` — so the returned and stored record contain the key
`k` with an empty value set, contradicting the claim that any key whose
resulting value-set is empty is absent. -/
theorem c7_empty_key_retained_counterexample :
    (modifyTarget .allOk stC7 reqC7).1 =
      .singleTarget
        { name := "t", typestr := "db", actions := ∅, attributes := [("k", ∅)] } ∧
    (lookupA "t" ((lookupA "db" (modifyTarget .allOk stC7 reqC7).2.targets).getD [])).map
        RegisteredTarget.attributes = some [("k", (∅ : Finset String))] := by
  decide

/-- C7 (amended).  For an existing target, ModifyTarget returns and commits
the record obtained from the old one by inserting the lowered
`add_actions`, then deleting the lowered `remove_actions`, unioning each
`add_attributes` key with the given values (creating the key, possibly with
an empty set, if absent), then set-differencing each `remove_attributes`
key — and a key is dropped exactly when it is named in `remove_attributes`
and its post-difference set is empty; in particular no `remove_attributes`
key is ever left mapped to an empty set. -/
theorem c7_modify_target_characterization (stor : StorageOutcome)
    (st : DsState) (req : ModifyTargetRequest)
    (typed : List (String × RegisteredTarget)) (t : RegisteredTarget)
    (htyped : lookupA (lower req.typestr) st.targets = some typed)
    (ht : lookupA (lower req.name) typed = some t)
    (hsave : stor.saveTarget = true)
    (hndt : (t.attributes.map Prod.fst).Nodup)
    (hnda : (req.add_attributes.map Prod.fst).Nodup)
    (hndr : (req.remove_attributes.map Prod.fst).Nodup) :
    ∃ u : RegisteredTarget,
      modifyTarget stor st req =
        (.singleTarget u,
          { st with targets :=
              (insertA (lower req.typestr) (insertA (lower req.name) u typed)
                st.targets) }) ∧
      u.name = t.name ∧
      u.typestr = t.typestr ∧
      u.actions = (t.actions ∪ (req.add_actions.map lower).toFinset) \
        (req.remove_actions.map lower).toFinset ∧
      (∀ k : String, lookupA k u.attributes =
        match lookupA k req.remove_attributes with
        | none =>
          match lookupA k req.add_attributes with
          | some vs => some ((lookupA k t.attributes).getD ∅ ∪ vs.toFinset)
          | none => lookupA k t.attributes
        | some vs =>
          match
            (match lookupA k req.add_attributes with
             | some vs₀ => some ((lookupA k t.attributes).getD ∅ ∪ vs₀.toFinset)
             | none => lookupA k t.attributes) with
          | none => none
          | some s => if s \ vs.toFinset = ∅ then none else some (s \ vs.toFinset)) ∧
      (∀ kv ∈ req.remove_attributes,
        lookupA kv.1 u.attributes ≠ some (∅ : Finset String)) := by
  have hpoint : ∀ k : String,
      lookupA k (req.remove_attributes.foldl applyRemoveAttr
        (req.add_attributes.foldl applyAddAttr t.attributes)) =
      match lookupA k req.remove_attributes with
      | none =>
        match lookupA k req.add_attributes with
        | some vs => some ((lookupA k t.attributes).getD ∅ ∪ vs.toFinset)
        | none => lookupA k t.attributes
      | some vs =>
        match
          (match lookupA k req.add_attributes with
           | some vs₀ => some ((lookupA k t.attributes).getD ∅ ∪ vs₀.toFinset)
           | none => lookupA k t.attributes) with
        | none => none
        | some s => if s \ vs.toFinset = ∅ then none else some (s \ vs.toFinset) := by
    intro k
    rw [lookupA_foldl_applyRemoveAttr _ _ _ hndr
      (nodup_keys_foldl_applyAddAttr _ _ hndt)]
    rw [lookupA_foldl_applyAddAttr _ _ _ hnda]
  simp only [modifyTarget, htyped, ht, hsave, if_true]
  refine ⟨_, rfl, rfl, rfl, ?_, ?_, ?_⟩
  · rw [foldl_insert_lower, foldl_erase_lower]
  · exact hpoint
  · intro kv hkv
    have hlook : lookupA kv.1 req.remove_attributes = some kv.2 :=
      lookupA_of_mem_nodup hndr hkv
    rw [hpoint kv.1, hlook]
    cases lookupA kv.1 req.add_attributes with
    | some vs₀ =>
      by_cases hd : ((lookupA kv.1 t.attributes).getD ∅ ∪ vs₀.toFinset) \
          kv.2.toFinset = ∅
      · simp [hd]
      · simp only [if_neg hd]
        intro h
        rw [Option.some_inj] at h
        exact hd h
    | none =>
      cases hta : lookupA kv.1 t.attributes with
      | none => simp
      | some s =>
        by_cases hd : s \ kv.2.toFinset = ∅
        · simp [hd]
        · simp only [if_neg hd]
          intro h
          rw [Option.some_inj] at h
          exact hd h

/-- Witness for the amended C7 at the concrete scenario of the spec
(section 8, target CRUD). -/
theorem c7_modify_target_characterization_witness :
    ∃ u : RegisteredTarget,
      modifyTarget .allOk stC7
          { name := "T", typestr := "DB", add_actions := ["Read"],
            remove_actions := [], add_attributes := [("env", ["prod"])],
            remove_attributes := [] } =
        (.singleTarget u,
          { stC7 with targets :=
              (insertA "db" (insertA "t" u [("t", tgtC7)]) stC7.targets) }) ∧
      u.name = tgtC7.name ∧
      u.typestr = tgtC7.typestr ∧
      u.actions = (tgtC7.actions ∪ ({"read"} : Finset String)) \ ∅ ∧
      (∀ k : String, lookupA k u.attributes =
        match lookupA k ([] : List (String × List String)) with
        | none =>
          match lookupA k [("env", ["prod"])] with
          | some vs => some ((lookupA k tgtC7.attributes).getD ∅ ∪ vs.toFinset)
          | none => lookupA k tgtC7.attributes
        | some vs =>
          match
            (match lookupA k [("env", ["prod"])] with
             | some vs₀ => some ((lookupA k tgtC7.attributes).getD ∅ ∪ vs₀.toFinset)
             | none => lookupA k tgtC7.attributes) with
          | none => none
          | some s => if s \ vs.toFinset = ∅ then none else some (s \ vs.toFinset)) ∧
      (∀ kv ∈ ([] : List (String × List String)),
        lookupA kv.1 u.attributes ≠ some (∅ : Finset String)) := by
  have h := c7_modify_target_characterization .allOk stC7
    { name := "T", typestr := "DB", add_actions := ["Read"],
      remove_actions := [], add_attributes := [("env", ["prod"])],
      remove_attributes := [] }
    [("t", tgtC7)] tgtC7 (by decide) (by decide) (by decide) (by decide)
    (by decide) (by decide)
  obtain ⟨u, h1, h2, h3, h4, h5, h6⟩ := h
  refine ⟨u, ?_, h2, h3, ?_, h5, h6⟩
  · have hl1 : lower "DB" = "db" := by decide
    have hl2 : lower "T" = "t" := by decide
    rw [hl1, hl2] at h1
    exact h1
  · have hl3 : (["Read"].map lower).toFinset = ({"read"} : Finset String) := by decide
    have hl4 : (([] : List String).map lower).toFinset = (∅ : Finset String) := by decide
    rw [hl3, hl4] at h4
    exact h4

/-! ## Persist-then-commit on storage failure (claim C2) -/

/-- The mutation requests of the datastore (`ds.rs` has no ModifyRole). -/
inductive DsOp where
  | opAddTarget (req : AddTargetRequest)
  | opModifyTarget (req : ModifyTargetRequest)
  | opRemoveTarget (req : RemoveTargetRequest)
  | opAddActor (req : AddActorRequest)
  | opModifyActor (req : ModifyActorRequest)
  | opRemoveActor (req : RemoveActorRequest)
  | opAddRole (req : AddRoleRequest)
  | opRemoveRole (req : RemoveRoleRequest)
  | opAddGroup (req : AddGroupRequest)
  | opModifyGroup (req : ModifyGroupRequest)
  | opRemoveGroup (req : RemoveGroupRequest)
  | opAddPolicy (req : AddPolicyRequest)
  | opModifyPolicy (req : ModifyPolicyRequest)
  | opRemovePolicy (req : RemovePolicyRequest)

/-- Dispatch one mutation to its `ds.rs` handler. -/
def runOp (stor : StorageOutcome) (st : DsState) : DsOp → DsResponse × DsState
  | .opAddTarget req => addTarget stor st req
  | .opModifyTarget req => modifyTarget stor st req
  | .opRemoveTarget req => removeTarget stor st req
  | .opAddActor req => addActor stor st req
  | .opModifyActor req => modifyActor stor st req
  | .opRemoveActor req => removeActor stor st req
  | .opAddRole req => addRole stor st req
  | .opRemoveRole req => removeRole stor st req
  | .opAddGroup req => addGroup stor st req
  | .opModifyGroup req => modifyGroup stor st req
  | .opRemoveGroup req => removeGroup stor st req
  | .opAddPolicy req => addPolicy stor st req
  | .opModifyPolicy req => modifyPolicy stor st req
  | .opRemovePolicy req => removePolicy stor st req

/-- Whether the storage call for the operation's PRIMARY record (the one
whose save/remove gates the commit) fails. -/
def primarySaveFails (stor : StorageOutcome) : DsOp → Bool
  | .opAddTarget _ => !stor.saveTarget
  | .opModifyTarget _ => !stor.saveTarget
  | .opRemoveTarget _ => !stor.removeTarget
  | .opAddActor _ => !stor.saveActor
  | .opModifyActor _ => !stor.saveActor
  | .opRemoveActor _ => !stor.removeActor
  | .opAddRole _ => !stor.saveRole
  | .opRemoveRole _ => !stor.removeRole
  | .opAddGroup _ => !stor.saveGroup
  | .opModifyGroup _ => !stor.saveGroup
  | .opRemoveGroup _ => !stor.removeGroup
  | .opAddPolicy _ => !stor.savePolicy
  | .opModifyPolicy _ => !stor.savePolicy
  | .opRemovePolicy _ => !stor.removePolicy

/-- All target records in the store (the per-type buckets flattened); an
`entry(..).or_insert_with(HashMap::new)` of an empty bucket does not change
this view. -/
def targetsFlat (st : DsState) : List RegisteredTarget :=
  st.targets.flatMap (fun b => b.2.map Prod.snd)

/-- All actor records in the store. -/
def actorsFlat (st : DsState) : List RegisteredActor :=
  st.actors.flatMap (fun b => b.2.map Prod.snd)

/-- What claim C2 asserts of a failed write `pr` issued against state `st`:
no success reply, the record collections unchanged, and every Get
unaffected. -/
def C2Concl (pr : DsResponse × DsState) (st : DsState) : Prop :=
  pr.1.isOk = false ∧
  targetsFlat pr.2 = targetsFlat st ∧
  actorsFlat pr.2 = actorsFlat st ∧
  pr.2.roles = st.roles ∧
  pr.2.groups = st.groups ∧
  pr.2.policies = st.policies ∧
  (∀ q : GetTargetsRequest, getTargets pr.2 q = getTargets st q) ∧
  (∀ q : GetActorsRequest, getActors pr.2 q = getActors st q) ∧
  (∀ q : GetRolesRequest, getRoles pr.2 q = getRoles st q) ∧
  (∀ q : GetGroupsRequest, getGroups pr.2 q = getGroups st q) ∧
  (∀ q : GetPoliciesRequest, getPolicies pr.2 q = getPolicies st q)

theorem c2concl_of_same (st : DsState) (resp : DsResponse)
    (h : resp.isOk = false) : C2Concl (resp, st) st :=
  ⟨h, rfl, rfl, rfl, rfl, rfl, fun _ => rfl, fun _ => rfl, fun _ => rfl,
    fun _ => rfl, fun _ => rfl⟩

theorem getTargets_targets_append_empty (st : DsState) (ts : String)
    (q : GetTargetsRequest) :
    getTargets { st with targets := st.targets ++ [(ts, [])] } q =
      getTargets st q := by
  simp only [getTargets, List.filter_append, List.flatMap_append]
  have h : (List.filter (fun b => optMatch (q.typestr.map lower) b.1)
        [(ts, ([] : List (String × RegisteredTarget)))]).flatMap
      (fun b => (b.2.filter (fun nt => optMatch (q.name.map lower) nt.1)).map
        Prod.snd) = [] := by
    by_cases hm : optMatch (q.typestr.map lower) ts = true <;> simp [hm]
  rw [h, List.append_nil]

theorem expandGroupsAndRoles_congr (st st' : DsState)
    (hg : st'.groups = st.groups) (a : RegisteredActor) :
    expandGroupsAndRoles st' a = expandGroupsAndRoles st a := by
  unfold expandGroupsAndRoles
  rw [hg]

theorem getActors_congr (st st' : DsState) (ha : st'.actors = st.actors)
    (hg : st'.groups = st.groups) (q : GetActorsRequest) :
    getActors st' q = getActors st q := by
  unfold getActors
  rw [ha]
  simp only [expandGroupsAndRoles_congr st st' hg]

theorem getActors_actors_append_empty (st : DsState) (ts : String)
    (q : GetActorsRequest) :
    getActors { st with actors := st.actors ++ [(ts, [])] } q =
      getActors st q := by
  have hexp : ∀ a, expandGroupsAndRoles
      { st with actors := st.actors ++ [(ts, [])] } a =
      expandGroupsAndRoles st a :=
    expandGroupsAndRoles_congr st _ rfl
  simp only [getActors, List.filter_append, List.flatMap_append, hexp]
  have h : (List.filter (fun b => optMatch (q.typestr.map lower) b.1)
        [(ts, ([] : List (String × RegisteredActor)))]).flatMap
      (fun b => (b.2.filter (fun na => optMatch (q.name.map lower) na.1)).map
        (fun na => expandGroupsAndRoles st na.2)) = [] := by
    by_cases hm : optMatch (q.typestr.map lower) ts = true <;> simp [hm]
  rw [h, List.append_nil]

theorem c2concl_targets_append (st : DsState) (resp : DsResponse) (ts : String)
    (h : resp.isOk = false) :
    C2Concl (resp, { st with targets := st.targets ++ [(ts, [])] }) st := by
  refine ⟨h, ?_, rfl, rfl, rfl, rfl, ?_, ?_, fun _ => rfl, fun _ => rfl,
    fun _ => rfl⟩
  · simp [targetsFlat]
  · exact getTargets_targets_append_empty st ts
  · exact getActors_congr st _ rfl rfl

theorem c2concl_actors_append (st : DsState) (resp : DsResponse) (ts : String)
    (h : resp.isOk = false) :
    C2Concl (resp, { st with actors := st.actors ++ [(ts, [])] }) st := by
  refine ⟨h, rfl, ?_, rfl, rfl, rfl, fun _ => rfl, ?_, fun _ => rfl,
    fun _ => rfl, fun _ => rfl⟩
  · simp [actorsFlat]
  · exact getActors_actors_append_empty st ts

theorem lookupA_append_self {α : Type} (k : String) (v : α)
    (l : List (String × α)) (h : lookupA k l = none) :
    lookupA k (l ++ [(k, v)]) = some v := by
  induction l with
  | nil => simp [lookupA]
  | cons hd t ih =>
    obtain ⟨k₀, v₀⟩ := hd
    by_cases hk : k₀ = k
    · subst hk
      simp [lookupA] at h
    · simp only [lookupA, if_neg hk] at h
      simp only [List.cons_append, lookupA, if_neg hk]
      exact ih h

/-- C2 (amended).  When the storage call for an operation's PRIMARY record
fails, the operation never replies with a success: the reply is an error
(or, for `remove_group` with a dangling role, a panic), and the in-memory
record collections and every Get are unchanged (the one in-memory trace a
failed Add may leave is an empty per-type bucket, which no Get can see).
The secondary role/group saves of the multi-record writes are NOT covered:
as the counterexample shows, their failure is only logged and the records
are committed to memory anyway. -/
theorem c2_primary_save_failure_never_commits (stor : StorageOutcome)
    (st : DsState) (op : DsOp) (hfail : primarySaveFails stor op = true) :
    C2Concl (runOp stor st op) st := by
  cases op with
  | opAddTarget req =>
    have hs : stor.saveTarget = false := by
      simpa [primarySaveFails] using hfail
    simp only [runOp, addTarget]
    by_cases hc : containsA (lower req.typestr) st.targets = true
    · simp only [hc, if_true]
      by_cases hn : containsA (lower req.name)
          ((lookupA (lower req.typestr) st.targets).getD []) = true
      · simp [hn]
        exact c2concl_of_same st _ (by rfl)
      · simp [hn, hs]
        exact c2concl_of_same st _ (by rfl)
    · have hc' : containsA (lower req.typestr) st.targets = false := by
        simpa using hc
      have hnone : lookupA (lower req.typestr) st.targets = none :=
        (containsA_false_iff _ _).mp hc'
      simp only [hc', Bool.false_eq_true, if_false]
      rw [insertA_append_of_not_mem _ _ _ hnone]
      rw [lookupA_append_self _ _ _ hnone]
      simp [containsA, lookupA, hs]
      exact c2concl_targets_append st _ (lower req.typestr) rfl
  | opModifyTarget req =>
    have hs : stor.saveTarget = false := by
      simpa [primarySaveFails] using hfail
    simp only [runOp, modifyTarget]
    cases h1 : lookupA (lower req.typestr) st.targets with
    | none =>
      simp only [h1]
      exact c2concl_of_same st _ (by rfl)
    | some typed =>
      simp only [h1]
      cases h2 : lookupA (lower req.name) typed with
      | none =>
        simp only [h2]
        exact c2concl_of_same st _ (by rfl)
      | some t =>
        simp only [h2]
        simp [hs]
        exact c2concl_of_same st _ (by rfl)
  | opRemoveTarget req =>
    have hs : stor.removeTarget = false := by
      simpa [primarySaveFails] using hfail
    simp only [runOp, removeTarget]
    cases h1 : lookupA (lower req.typestr) st.targets with
    | none =>
      simp only [h1]
      exact c2concl_of_same st _ (by rfl)
    | some typed =>
      simp only [h1]
      cases h2 : lookupA (lower req.name) typed with
      | none =>
        simp only [h2]
        exact c2concl_of_same st _ (by rfl)
      | some t =>
        simp only [h2]
        simp [hs]
        exact c2concl_of_same st _ (by rfl)
  | opAddActor req =>
    have hs : stor.saveActor = false := by
      simpa [primarySaveFails] using hfail
    simp only [runOp, addActor]
    by_cases hc : containsA (lower req.typestr) st.actors = true
    · simp only [hc, if_true]
      by_cases hn : containsA (lower req.name)
          ((lookupA (lower req.typestr) st.actors).getD []) = true
      · simp [hn]
        exact c2concl_of_same st _ (by rfl)
      · simp [hn, hs]
        exact c2concl_of_same st _ (by rfl)
    · have hc' : containsA (lower req.typestr) st.actors = false := by
        simpa using hc
      have hnone : lookupA (lower req.typestr) st.actors = none :=
        (containsA_false_iff _ _).mp hc'
      simp only [hc', Bool.false_eq_true, if_false]
      rw [insertA_append_of_not_mem _ _ _ hnone]
      rw [lookupA_append_self _ _ _ hnone]
      simp [containsA, lookupA, hs]
      exact c2concl_actors_append st _ (lower req.typestr) rfl
  | opModifyActor req =>
    have hs : stor.saveActor = false := by
      simpa [primarySaveFails] using hfail
    simp only [runOp, modifyActor]
    cases h1 : lookupA (lower req.typestr) st.actors with
    | none =>
      simp only [h1]
      exact c2concl_of_same st _ (by rfl)
    | some typed =>
      simp only [h1]
      cases h2 : lookupA (lower req.name) typed with
      | none =>
        simp only [h2]
        exact c2concl_of_same st _ (by rfl)
      | some a =>
        simp only [h2]
        simp [hs]
        exact c2concl_of_same st _ (by rfl)
  | opRemoveActor req =>
    have hs : stor.removeActor = false := by
      simpa [primarySaveFails] using hfail
    simp only [runOp, removeActor]
    cases h1 : lookupA (lower req.typestr) st.actors with
    | none =>
      simp only [h1]
      exact c2concl_of_same st _ (by rfl)
    | some typed =>
      simp only [h1]
      cases h2 : lookupA (lower req.name) typed with
      | none =>
        simp only [h2]
        exact c2concl_of_same st _ (by rfl)
      | some a =>
        simp only [h2]
        simp [hs]
        exact c2concl_of_same st _ (by rfl)
  | opAddRole req =>
    have hs : stor.saveRole = false := by
      simpa [primarySaveFails] using hfail
    simp only [runOp, addRole]
    by_cases hc : containsA (lower req.name) st.roles = true
    · simp [hc]
      exact c2concl_of_same st _ (by rfl)
    · simp [hc, hs]
      exact c2concl_of_same st _ (by rfl)
  | opRemoveRole req =>
    have hs : stor.removeRole = false := by
      simpa [primarySaveFails] using hfail
    simp only [runOp, removeRole]
    cases h1 : lookupA (lower req.name) st.roles with
    | none =>
      simp only [h1]
      exact c2concl_of_same st _ (by rfl)
    | some existing =>
      simp only [h1]
      simp [hs]
      exact c2concl_of_same st _ (by rfl)
  | opAddGroup req =>
    have hs : stor.saveGroup = false := by
      simpa [primarySaveFails] using hfail
    simp only [runOp, addGroup]
    by_cases hc : containsA (lower req.name) st.groups = true
    · simp [hc]
      exact c2concl_of_same st _ (by rfl)
    · simp only [hc, Bool.false_eq_true, if_false]
      cases hcol : collectRoles st.roles
          (fun role => { role with groups := insert (lower req.name) role.groups })
          req.roles with
      | none =>
        simp only [hcol]
        exact c2concl_of_same st _ (by rfl)
      | some pr =>
        obtain ⟨roles, found⟩ := pr
        simp only [hcol]
        simp [hs]
        exact c2concl_of_same st _ (by rfl)
  | opModifyGroup req =>
    have hs : stor.saveGroup = false := by
      simpa [primarySaveFails] using hfail
    simp only [runOp, modifyGroup]
    cases h1 : lookupA (lower req.name) st.groups with
    | none =>
      simp only [h1]
      exact c2concl_of_same st _ (by rfl)
    | some g =>
      simp only [h1]
      cases hca : collectRoles st.roles
          (fun role => { role with groups := insert (lower req.name) role.groups })
          req.add_roles with
      | none =>
        simp only [hca]
        exact c2concl_of_same st _ (by rfl)
      | some pra =>
        obtain ⟨addSet, addClones⟩ := pra
        simp only [hca]
        cases hcr : collectRoles st.roles
            (fun role => { role with groups := role.groups.erase (lower req.name) })
            req.remove_roles with
        | none =>
          simp only [hcr]
          exact c2concl_of_same st _ (by rfl)
        | some prr =>
          obtain ⟨removeSet, removeClones⟩ := prr
          simp only [hcr]
          simp [hs]
          exact c2concl_of_same st _ (by rfl)
  | opRemoveGroup req =>
    have hs : stor.removeGroup = false := by
      simpa [primarySaveFails] using hfail
    simp only [runOp, removeGroup]
    cases h1 : lookupA (lower req.name) st.groups with
    | none =>
      simp only [h1]
      exact c2concl_of_same st _ (by rfl)
    | some g =>
      simp only [h1]
      cases hcol : collectRemoveGroupRoles st.roles (lower req.name)
          (finsetSort g.roles) with
      | none =>
        simp only [hcol]
        exact c2concl_of_same st _ (by rfl)
      | some found =>
        simp only [hcol]
        simp [hs]
        exact c2concl_of_same st _ (by rfl)
  | opAddPolicy req =>
    have hs : stor.savePolicy = false := by
      simpa [primarySaveFails] using hfail
    simp only [runOp, addPolicy]
    cases req.rule with
    | none => exact c2concl_of_same st _ (by rfl)
    | some rule =>
      by_cases hc : containsA (lower rule.name) st.policies = true
      · simp [hc]
        exact c2concl_of_same st _ (by rfl)
      · simp [hc, hs]
        exact c2concl_of_same st _ (by rfl)
  | opModifyPolicy req =>
    have hs : stor.savePolicy = false := by
      simpa [primarySaveFails] using hfail
    simp only [runOp, modifyPolicy]
    cases req.rule with
    | none => exact c2concl_of_same st _ (by rfl)
    | some rule =>
      by_cases hc : containsA (lower rule.name) st.policies = true
      · simp [hc, hs]
        exact c2concl_of_same st _ (by rfl)
      · simp [hc]
        exact c2concl_of_same st _ (by rfl)
  | opRemovePolicy req =>
    have hs : stor.removePolicy = false := by
      simpa [primarySaveFails] using hfail
    simp only [runOp, removePolicy]
    cases h1 : lookupA (lower req.name) st.policies with
    | none =>
      simp only [h1]
      exact c2concl_of_same st _ (by rfl)
    | some existing =>
      simp only [h1]
      simp [hs]
      exact c2concl_of_same st _ (by rfl)

/-- A backend on which only `save_role` fails. -/
def storC2 : StorageOutcome := { StorageOutcome.allOk with saveRole := false }

/-- Fixture for the C2 counterexample: one registered role `r`. -/
def stC2 : DsState :=
  { DsState.empty with roles := [("r", { name := "r", groups := ∅ })] }

def reqC2 : AddGroupRequest :=
  { name := "g", desc := none, members := [], roles := ["r"] }

/-- C2 (counterexample).  With `save_role` failing, AddGroup(g, roles=[r])
still replies with the new group (no internal-storage error), commits
role `r`'s new back-reference `{g}` to memory although its save errored,
and a subsequent GetGroups reflects the attempted change — the secondary
saves of multi-record writes do not obey persist-then-commit. -/
theorem c2_secondary_save_failure_counterexample :
    storC2.saveRole = false ∧
    (addGroup storC2 stC2 reqC2).1 =
      .singleGroup { name := "g", desc := none, members := ∅, roles := {"r"} } ∧
    lookupA "r" (addGroup storC2 stC2 reqC2).2.roles =
      some { name := "r", groups := {"g"} } ∧
    getGroups (addGroup storC2 stC2 reqC2).2
        { name := some "g", member := none, role := none } =
      .multipleGroups [{ name := "g", desc := none, members := ∅, roles := {"r"} }] ∧
    getGroups stC2 { name := some "g", member := none, role := none } =
      .multipleGroups [] := by
  decide

/-- Witness for the amended C2: a failing primary save on a concrete
ModifyTarget leaves the store untouched. -/
theorem c2_primary_save_failure_never_commits_witness :
    C2Concl
      (runOp { StorageOutcome.allOk with saveTarget := false } stC7
        (.opModifyTarget reqC7)) stC7 :=
  c2_primary_save_failure_never_commits
    { StorageOutcome.allOk with saveTarget := false } stC7
    (.opModifyTarget reqC7) (by decide)

end Gatehouse
